import Mathlib

/-!
AWE: identifiers, persistence gateway, job controller and CWL parser

A shallow embedding of `lib/core/workunitUniqueIdentifier.go`, `lib/core/db.go`,
`lib/controller/jobController.go` and `lib/core/cwl/cwl.go`, followed by theorems about them.

Conventions of the embedding

* A Go `string` is a `List Char` (`GoString`).  The code under study only splits and joins on
  the ASCII byte `_`, compares strings and parses decimal digits, all of which agree on bytes
  and on code points.
* A Go `error` is an `Option GoError` (`none` is `nil`).
* A Go function that may fault at run time (index or slice bounds) returns an `Option` whose
  `none` is the run-time panic.
* Go `int` is 64 bits wide and is represented by an `Int`.
-/

namespace AWE

/-! ## Go strings, errors and the `strings` / `strconv` functions the code calls -/

/-- A Go string. -/
abbrev GoString := List Char

/-- The two sentinel errors of `strconv`. -/
inductive NumErrKind where
  | ErrSyntax
  | ErrRange
  deriving DecidableEq, Repr

/-- A Go error value.  `New` is an error made by `errors.New` or `fmt.Errorf` with the given
text, `NumError` is `*strconv.NumError`, `ext` is an error value that comes back from a library
outside the repository (the database driver, the queue manager) with the given text. -/
inductive GoError where
  | New (msg : GoString)
  | NumError (Func : GoString) (Num : GoString) (Err : NumErrKind)
  | ext (msg : GoString)
  deriving DecidableEq, Repr

/-- Go `error`: `none` is `nil`. -/
abbrev error := Option GoError

/-- Method `Error()`.  For a `NumError` the quoting of `Num` by `strconv.Quote` is not
reproduced (the text of a `NumError` is never inspected by the code modelled here). -/
def GoError.Error : GoError → GoString
  | .New msg => msg
  | .NumError f n .ErrSyntax => "strconv.".toList ++ f ++ ": parsing \"".toList ++ n ++ "\": invalid syntax".toList
  | .NumError f n .ErrRange => "strconv.".toList ++ f ++ ": parsing \"".toList ++ n ++ "\": value out of range".toList
  | .ext msg => msg

/-- Function `strings.Split(s, sep)` for a separator of one byte: the pieces of `s` between the
occurrences of `sep`; a string without `sep` (the empty string included) gives one piece. -/
def Split : GoString → Char → List GoString
  | [], _ => [[]]
  | c :: cs, sep =>
    if c = sep then [] :: Split cs sep
    else
      match Split cs sep with
      | [] => [[c]]
      | piece :: rest => (c :: piece) :: rest

/-- Function `strings.Join(a, sep)`. -/
def Join : List GoString → GoString → GoString
  | [], _ => []
  | [a], _ => a
  | a :: b :: rest, sep => a ++ sep ++ Join (b :: rest) sep

/-- Go index expression `a[i]` with an `int` index: `none` is the index-out-of-range panic. -/
def index {α : Type} (a : List α) (i : Int) : Option α :=
  if 0 ≤ i ∧ i < a.length then a.get? i.toNat else none

/-- Go slice expression `a[lo:hi]` with `int` bounds on a slice whose capacity is its length:
`none` is the slice-bounds-out-of-range panic. -/
def slice {α : Type} (a : List α) (lo hi : Int) : Option (List α) :=
  if 0 ≤ lo ∧ lo ≤ hi ∧ hi ≤ a.length then some ((a.take hi.toNat).drop lo.toNat) else none

/-- Width of Go `int`. -/
def intSize : Nat := 64

/-- Byte test `'0' <= c && c <= '9'`. -/
def isDigit (c : Char) : Bool := decide ('0'.toNat ≤ c.toNat ∧ c.toNat ≤ '9'.toNat)

/-- Value `c - '0'` of a digit. -/
def digitVal (c : Char) : Nat := c.toNat - '0'.toNat

/-- The digit loop of `strconv.ParseUint(s, 10, 64)`: a byte that is no digit is a syntax
error, a value that leaves the 64-bit range is a range error (reported at the digit where it
happens, before later bytes are looked at). -/
def parseUintLoop : List Char → Nat → Except NumErrKind Nat
  | [], n => .ok n
  | c :: cs, n =>
    if !isDigit c then .error .ErrSyntax
    else if n ≥ (2 ^ 64 - 1) / 10 + 1 then .error .ErrRange
    else if n * 10 + digitVal c > 2 ^ 64 - 1 then .error .ErrRange
    else parseUintLoop cs (n * 10 + digitVal c)

/-- Function `strconv.ParseUint(s, 10, 64)`; on a range error the value is the maximum. -/
def ParseUint (s : GoString) : Nat × Option NumErrKind :=
  if s = [] then (0, some .ErrSyntax)
  else
    match parseUintLoop s 0 with
    | .ok n => (n, none)
    | .error .ErrSyntax => (0, some .ErrSyntax)
    | .error .ErrRange => (2 ^ 64 - 1, some .ErrRange)

/-- Function `strconv.ParseInt(s, 10, 0)` with the function name of the error set to `fn`. -/
def ParseInt (fn : GoString) (s : GoString) : Int × error :=
  if s = [] then (0, some (.NumError fn s .ErrSyntax))
  else
    let neg := decide (s.head? = some '-')
    let body := if s.head? = some '+' ∨ s.head? = some '-' then s.tail else s
    match ParseUint body with
    | (_, some .ErrSyntax) => (0, some (.NumError fn s .ErrSyntax))
    | (un, _) =>
      if !neg ∧ un ≥ 2 ^ (intSize - 1) then ((2 : Int) ^ (intSize - 1) - 1, some (.NumError fn s .ErrRange))
      else if neg ∧ un > 2 ^ (intSize - 1) then (-(2 : Int) ^ (intSize - 1), some (.NumError fn s .ErrRange))
      else (if neg then -(un : Int) else (un : Int), none)

/-- The digit loop of the fast path of `strconv.Atoi`; `none` is its syntax error. -/
def atoiFastLoop : List Char → Nat → Option Nat
  | [], n => some n
  | c :: cs, n => if !isDigit c then none else atoiFastLoop cs (n * 10 + digitVal c)

/-- Function `strconv.Atoi`: the fast path for strings of 1 to 18 bytes and `ParseInt`
otherwise. -/
def Atoi (s : GoString) : Int × error :=
  if 0 < s.length ∧ s.length < 19 then
    let body := if s.head? = some '-' ∨ s.head? = some '+' then s.tail else s
    if body.length < 1 then (0, some (.NumError "Atoi".toList s .ErrSyntax))
    else
      match atoiFastLoop body 0 with
      | none => (0, some (.NumError "Atoi".toList s .ErrSyntax))
      | some n => (if s.head? = some '-' then -(n : Int) else (n : Int), none)
  else ParseInt "Atoi".toList s

/-- Decimal digits of a natural number, most significant first (`fuel` bounds the number of
digits). -/
def formatNatAux : Nat → Nat → List Char
  | 0, _ => []
  | fuel + 1, n =>
    if n < 10 then [Char.ofNat (48 + n)]
    else formatNatAux fuel (n / 10) ++ [Char.ofNat (48 + n % 10)]

/-- The verb `%d` on a non-negative value. -/
def FormatNat (n : Nat) : GoString := formatNatAux (n + 1) n

/-- The verb `%d` of `fmt.Sprintf` on an `int`. -/
def FormatInt (i : Int) : GoString :=
  if i < 0 then '-' :: FormatNat i.natAbs else FormatNat i.natAbs

/-! ## `lib/core/workunitUniqueIdentifier.go` -/

/-- Modelled from the spec: the type `Task_Unique_Identifier`, whose declaration is outside the
sources at hand; the spec gives the tuple (JobId, WorkflowPath, TaskName) and the embedding
struct names the fields `TaskName, Workflow, JobId`. -/
structure Task_Unique_Identifier where
  JobId : GoString
  Workflow : GoString
  TaskName : GoString
  deriving DecidableEq, Repr

/-- Modelled from the spec: `Task_Unique_Identifier.String`, outside the sources at hand; the
spec gives the string form `"<JobId>_<workflow_path>/<name>"`. -/
def Task_Unique_Identifier.String (t : Task_Unique_Identifier) : GoString :=
  t.JobId ++ "_".toList ++ t.Workflow ++ "/".toList ++ t.TaskName

/-- The struct `Workunit_Unique_Identifier`: the embedded task identifier and the rank. -/
structure Workunit_Unique_Identifier where
  Task_Unique_Identifier : Task_Unique_Identifier
  Rank : Int
  deriving DecidableEq, Repr

/-- The zero value of `Workunit_Unique_Identifier`. -/
def Workunit_Unique_Identifier.zero : Workunit_Unique_Identifier :=
  ⟨⟨[], [], []⟩, 0⟩

/-- The promoted field `w.JobId`. -/
def Workunit_Unique_Identifier.JobId (w : Workunit_Unique_Identifier) : GoString :=
  w.Task_Unique_Identifier.JobId

/-- Constructor `New_Workunit_Unique_Identifier`. -/
def New_Workunit_Unique_Identifier (task : Task_Unique_Identifier) (rank : Int) :
    Workunit_Unique_Identifier :=
  let wui := Workunit_Unique_Identifier.zero
  let wui := { wui with Task_Unique_Identifier := task }
  let wui := { wui with Rank := rank }
  wui

/-- Method `Workunit_Unique_Identifier.String`:
`fmt.Sprintf("%s_%s_%d", w.JobId, task_string, w.Rank)`. -/
def Workunit_Unique_Identifier.String (w : Workunit_Unique_Identifier) : GoString :=
  let task_string := w.Task_Unique_Identifier.String
  w.JobId ++ "_".toList ++ task_string ++ "_".toList ++ FormatInt w.Rank

/-- Method `GetTask`. -/
def Workunit_Unique_Identifier.GetTask (w : Workunit_Unique_Identifier) :
    AWE.Task_Unique_Identifier :=
  w.Task_Unique_Identifier

/-- Function `New_Workunit_Unique_Identifier_FromString`.  The parser of task identifiers,
`New_Task_Unique_Identifier_FromString`, is outside the sources at hand and is the parameter
`taskFromString`.  The result is `none` when an index or slice expression faults. -/
def New_Workunit_Unique_Identifier_FromString
    (taskFromString : GoString → Task_Unique_Identifier × error)
    (old_style_id : GoString) : Option (Workunit_Unique_Identifier × error) :=
  let array := Split old_style_id '_'
  match index array ((array.length : Int) - 1) with
  | none => none
  | some rank_string =>
    let pfx : Option GoString :=
      if array.length > 1 then
        (slice array 0 ((array.length : Int) - 2)).map (fun part => Join part "_".toList)
      else some []
    match pfx with
    | none => none
    | some pfx =>
      match Atoi rank_string with
      | (_, some err) => some (Workunit_Unique_Identifier.zero, some err)
      | (rank, none) =>
        match taskFromString pfx with
        | (_, some err) =>
          some (Workunit_Unique_Identifier.zero,
            some (.New ("(New_Workunit_Unique_Identifier_FromString) New_Task_Unique_Identifier_FromString returns: ".toList
              ++ err.Error)))
        | (t, none) => some (New_Workunit_Unique_Identifier t rank, none)

/-! ## `lib/core/db.go` -/

/-- An instant as the store keeps it (a BSON date). -/
abbrev Time := Int

/-- The Go values that the code puts into `bson.M` documents.  `pointer` is a `*PartInfo`,
`pointers` a `[]*IO` (the pointed-to structs are declared outside the sources at hand), `M` a
nested `bson.M` and `Ms` a `[]bson.M`. -/
inductive GoValue where
  | nil
  | string (s : GoString)
  | int (i : Int)
  | bool (b : Bool)
  | Time (t : Time)
  | strings (l : List GoString)
  | pointer (addr : Nat)
  | pointers (addrs : List Nat)
  | M (m : List (GoString × GoValue))
  | Ms (l : List (List (GoString × GoValue)))

/-- The type `bson.M`, a map from keys to values, as the list of its entries. -/
abbrev M := List (GoString × GoValue)

/-- The field `Info` of a job, with the members the modelled code reads. -/
structure Info where
  Name : GoString
  Project : GoString
  User : GoString

/-- The struct `Job` (declared outside the sources at hand), with the members the modelled code
reads or writes. -/
structure Job where
  Id : GoString
  Jid : GoString
  Info : Info
  Registered : Bool

/-- The struct `JobPerf` (declared outside the sources at hand). -/
structure JobPerf where
  Id : GoString

/-- The struct `ClientGroup` (declared outside the sources at hand). -/
structure ClientGroup where
  Id : GoString

/-- The dynamic type and value of the argument `t interface{}` of `dbUpsert`. -/
inductive DbEntry where
  | Job (t : Job)
  | JobPerf (t : JobPerf)
  | ClientGroup (t : ClientGroup)
  | other (tag : Nat)

/-- The package `conf`: the configuration values the modelled code reads. -/
structure Conf where
  ADMIN_AUTH : Bool
  MONGODB_DATABASE : GoString
  DB_COLL_JOBS : GoString
  DB_COLL_PERF : GoString
  DB_COLL_CGS : GoString
  DEFAULT_PAGE_SIZE : Int

/-- What lies outside `db.go` and answers its calls: the configuration, the clock, the BSON
encoder, the database driver (whose errors are given by their text) and the methods of `Job`
and `Jobs` that `LoadJob` and `dbFind` call.  `All` is `query.All(results)`, after
`Limit(limit).Skip(offset)` when a pair is given; it is handed the pointer `results` (`none`
being `nil`) and answers with the jobs it stores there and its error. -/
structure Env where
  conf : Conf
  Now : Time
  AddDate : Time → Int → Int → Int → Time
  Marshal : DbEntry → List Nat × Option GoString
  Upsert : GoString → GoString → M → DbEntry → Option GoString
  Update : GoString → GoString → M → M → Option GoString
  FindSelectAll : GoString → GoString → M → M → List GoValue × Option GoString
  NewJob : Job
  OneJob : GoString → GoString → M → Job → Job × Option GoString
  OneJobPerf : GoString → GoString → M → JobPerf → JobPerf × Option GoString
  Init : Job → Job × Bool × Option GoString
  Count : GoString → GoString → M → Int × Option GoString
  All : GoString → GoString → M → Option (Int × Int) → Option (List Job) →
    List Job × Option GoString
  JobsInit : List Job → List Job × Int × Option GoString

/-- The fields of `mgo.Index` that the code sets. -/
structure mgoIndex where
  Key : List GoString
  Unique : Bool
  Background : Bool
  deriving DecidableEq

/-- What a handler hands to `cx.RespondWithData`: a job, a perf record, a workflow-run export
(a pointer, `none` being `nil`) or a text. -/
inductive Data where
  | job (j : Job)
  | perf (p : Option JobPerf)
  | wfrun (p : Option Nat)
  | text (s : GoString)

/-- The observable actions of the modelled code, in the order in which they happen: the calls
into the database driver, the queue manager `core.QMgr`, the other collaborators of the
handlers, and the responses written to the request context.  `panic` is a run-time fault, after
which nothing follows. -/
inductive Event where
  | SessionCopy
  | SessionClose
  | Printf (text : GoString)
  | Upsert (db coll : GoString) (selector : M) (doc : DbEntry)
  | Update (db coll : GoString) (selector : M) (update : M)
  | FindSelectAll (db coll : GoString) (query : M) (fields : M)
  | FindOne (db coll : GoString) (query : M)
  | JobInit (job : Job)
  | JobSave (job : Job)
  | LogRequest
  | AdminAuthenticated
  | loggerError (msg : GoString)
  | loggerEvent (kind : GoString) (msg : GoString)
  | RespondWithOK
  | RespondWithData (data : Data)
  | RespondWithPaginatedData (jobs : List Job) (limit offset total : Int)
  | RespondWithErrorMessage (msg : GoString) (status : Int)
  | RespondWithError (status : Int)
  | RespondWithNotFound
  | ParseMultipartForm
  | JobRegister
  | CreateJobUpload (params files : List (GoString × GoString)) (jid : GoString)
  | RetrieveToken
  | SetDataToken (job : Job) (token : GoString)
  | EnqueueTasksByJobId (id : GoString) (tasks : List Nat)
  | IsJobRegistered (id : GoString)
  | ExportWorkflowRun (job : Job)
  | GetAll (q : M) (order direction : GoString)
  | GetPaginated (q : M) (limit offset : Int) (order direction : GoString)
  | GetActiveJobs
  | GetSuspendJobs
  | ResumeSuspendedJobs
  | ResumeSuspendedJob (id : GoString)
  | SuspendJob (id reason : GoString)
  | ResubmitJob (id : GoString)
  | RecomputeJob (id stage : GoString)
  | UpdateGroup (id newgroup : GoString)
  | UpdatePriority (id : GoString) (priority : Int)
  | DeleteJob (id : GoString)
  | DeleteSuspendedJobs
  | DeleteZombieJobs
  | EnsureIndex (db coll : GoString) (index : mgoIndex)
  | Count (db coll : GoString) (query : M)
  | All (db coll : GoString) (query : M) (page : Option (Int × Int))
  | JobsInit (jobs : List Job)
  | panic

/-- The limit `DocumentMaxByte`. -/
def DocumentMaxByte : Int := 16777216

/-- Function `dbUpsert`. -/
def dbUpsert (env : Env) (t : DbEntry) : error × List Event :=
  let tooLarge : Bool :=
    match env.Marshal t with
    | (nbson, none) => decide ((nbson.length : Int) ≥ DocumentMaxByte)
    | (_, some _) => false
  if tooLarge then
    (some (.New ("bson document size is greater than limit of ".toList ++ FormatInt DocumentMaxByte
      ++ " bytes".toList)), [])
  else
    match t with
    | .Job j =>
      let selector : M := [("id".toList, .string j.Id)]
      ((env.Upsert env.conf.MONGODB_DATABASE env.conf.DB_COLL_JOBS selector t).map .ext,
        [.SessionCopy, .Upsert env.conf.MONGODB_DATABASE env.conf.DB_COLL_JOBS selector t,
          .SessionClose])
    | .JobPerf p =>
      let selector : M := [("id".toList, .string p.Id)]
      ((env.Upsert env.conf.MONGODB_DATABASE env.conf.DB_COLL_PERF selector t).map .ext,
        [.SessionCopy, .Upsert env.conf.MONGODB_DATABASE env.conf.DB_COLL_PERF selector t,
          .SessionClose])
    | .ClientGroup c =>
      let selector : M := [("id".toList, .string c.Id)]
      ((env.Upsert env.conf.MONGODB_DATABASE env.conf.DB_COLL_CGS selector t).map .ext,
        [.SessionCopy, .Upsert env.conf.MONGODB_DATABASE env.conf.DB_COLL_CGS selector t,
          .SessionClose])
    | .other _ =>
      (none, [.SessionCopy, .Printf "invalid database entry type\n".toList, .SessionClose])

/-- Function `dbAdminData`. -/
def dbAdminData (env : Env) (special : GoString) : (List GoValue × error) × List Event :=
  let completedjobs : M :=
    [("state".toList, .string "completed".toList),
     ("info.completedtime".toList, .M [("$gt".toList, .Time (env.AddDate env.Now 0 (-1) 0))])]
  let runningjobs : M :=
    [("state".toList, .M [("$nin".toList, .strings ["completed".toList, "deleted".toList])])]
  let resultfields : M :=
    [("_id".toList, .int 0), ("state".toList, .int 1), ("info.name".toList, .int 1),
     ("info.submittime".toList, .int 1), ("info.startedtime".toList, .int 1),
     ("info.completedtime".toList, .int 1), ("info.pipeline".toList, .int 1),
     ("tasks.createdDate".toList, .int 1), ("tasks.startedDate".toList, .int 1),
     ("tasks.completedDate".toList, .int 1), ("tasks.state".toList, .int 1),
     ("tasks.inputs.size".toList, .int 1), ("tasks.outputs.size".toList, .int 1),
     (special, .int 1)]
  let query : M := [("$or".toList, .Ms [completedjobs, runningjobs])]
  let found := env.FindSelectAll env.conf.MONGODB_DATABASE env.conf.DB_COLL_JOBS query resultfields
  ((found.1, found.2.map .ext),
    [.SessionCopy,
     .FindSelectAll env.conf.MONGODB_DATABASE env.conf.DB_COLL_JOBS query resultfields,
     .SessionClose])

/-- Function `dbUpdateJobTaskFields`.  (The text of the driver's error is used by the code as a
format string; a text without verbs is taken.) -/
def dbUpdateJobTaskFields (env : Env) (job_id task_id : GoString) (update_value : M) :
    error × List Event :=
  let selector : M := [("id".toList, .string job_id), ("tasks.taskid".toList, .string task_id)]
  let update : M := [("$set".toList, .M update_value)]
  let err : error :=
    match env.Update env.conf.MONGODB_DATABASE env.conf.DB_COLL_JOBS selector update with
    | some msg => some (.New ("(dbUpdateJobTaskFields) Error updating task: ".toList ++ msg))
    | none => none
  (err, [.SessionCopy, .Update env.conf.MONGODB_DATABASE env.conf.DB_COLL_JOBS selector update,
    .SessionClose])

/-- Function `dbUpdateJobTaskField`. -/
def dbUpdateJobTaskField (env : Env) (job_id task_id fieldname : GoString) (value : GoValue) :
    error × List Event :=
  let update_value : M := [("tasks.$.".toList ++ fieldname, value)]
  dbUpdateJobTaskFields env job_id task_id update_value

/-- Function `dbUpdateJobTaskInt`. -/
def dbUpdateJobTaskInt (env : Env) (job_id task_id fieldname : GoString) (value : Int) :
    error × List Event :=
  let update_value : M := [("tasks.$.".toList ++ fieldname, .int value)]
  dbUpdateJobTaskFields env job_id task_id update_value

/-- Function `dbUpdateJobTaskBoolean`. -/
def dbUpdateJobTaskBoolean (env : Env) (job_id task_id fieldname : GoString) (value : Bool) :
    error × List Event :=
  let update_value : M := [("tasks.$.".toList ++ fieldname, .bool value)]
  dbUpdateJobTaskFields env job_id task_id update_value

/-- Function `dbUpdateJobTaskString`. -/
def dbUpdateJobTaskString (env : Env) (job_id task_id fieldname value : GoString) :
    error × List Event :=
  let update_value : M := [("tasks.$.".toList ++ fieldname, .string value)]
  let r := dbUpdateJobTaskFields env job_id task_id update_value
  match r.1 with
  | some err =>
    (some (.New (" job_id=".toList ++ job_id ++ ", task_id=".toList ++ task_id
      ++ ", fieldname=".toList ++ fieldname ++ ", value=".toList ++ value
      ++ " error=".toList ++ err.Error)), r.2)
  | none => (none, r.2)

/-- Function `dbUpdateJobTaskTime`. -/
def dbUpdateJobTaskTime (env : Env) (job_id task_id fieldname : GoString) (value : Time) :
    error × List Event :=
  let update_value : M := [("tasks.$.".toList ++ fieldname, .Time value)]
  dbUpdateJobTaskFields env job_id task_id update_value

/-- Function `dbUpdateJobTaskPartition`; `partition` is the `*PartInfo`. -/
def dbUpdateJobTaskPartition (env : Env) (job_id task_id : GoString) (partition : Nat) :
    error × List Event :=
  let update_value : M := [("tasks.$.partinfo".toList, .pointer partition)]
  dbUpdateJobTaskFields env job_id task_id update_value

/-- Function `dbUpdateJobTaskIO`; `value` is the `[]*IO`. -/
def dbUpdateJobTaskIO (env : Env) (job_id task_id fieldname : GoString) (value : List Nat) :
    error × List Event :=
  let update_value : M := [("tasks.$.".toList ++ fieldname, .pointers value)]
  dbUpdateJobTaskFields env job_id task_id update_value

/-- Function `dbIncrementJobTaskField`. -/
def dbIncrementJobTaskField (env : Env) (job_id task_id fieldname : GoString)
    (increment_value : Int) : error × List Event :=
  let selector : M := [("id".toList, .string job_id), ("tasks.taskid".toList, .string task_id)]
  let update_value : M := [("tasks.$.".toList ++ fieldname, .int increment_value)]
  let update : M := [("$inc".toList, .M update_value)]
  let err : error :=
    match env.Update env.conf.MONGODB_DATABASE env.conf.DB_COLL_JOBS selector update with
    | some msg =>
      some (.New ("Error incrementing job_id=".toList ++ job_id ++ " fieldname=".toList
        ++ fieldname ++ " by ".toList ++ FormatInt increment_value ++ ": ".toList ++ msg))
    | none => none
  (err, [.SessionCopy, .Update env.conf.MONGODB_DATABASE env.conf.DB_COLL_JOBS selector update,
    .SessionClose])

/-- Function `LoadJob`: the returned pair `(job, err)`, `none` being `nil` in both places, and
the actions in order (the deferred `session.Close()` last). -/
def LoadJob (env : Env) (id : GoString) : (Option Job × error) × List Event :=
  let job := env.NewJob
  let query : M := [("id".toList, .string id)]
  let find := Event.FindOne env.conf.MONGODB_DATABASE env.conf.DB_COLL_JOBS query
  match env.OneJob env.conf.MONGODB_DATABASE env.conf.DB_COLL_JOBS query job with
  | (_, some msg) =>
    ((none, some (.New ("(LoadJob) c.Find failed: ".toList ++ msg))),
      [.SessionCopy, find, .SessionClose])
  | (job, none) =>
    match env.Init job with
    | (job1, _, some xmsg) =>
      ((some job1, some (.New ("(LoadJob) job.Init failed: ".toList ++ xmsg))),
        [.SessionCopy, find, .JobInit job, .SessionClose])
    | (job1, changed, none) =>
      if changed then
        ((some job1, none), [.SessionCopy, find, .JobInit job, .JobSave job1, .SessionClose])
      else ((some job1, none), [.SessionCopy, find, .JobInit job, .SessionClose])

/-- Function `LoadJobPerf`. -/
def LoadJobPerf (env : Env) (id : GoString) : (Option JobPerf × error) × List Event :=
  let perf : JobPerf := ⟨[]⟩
  let query : M := [("id".toList, .string id)]
  let find := Event.FindOne env.conf.MONGODB_DATABASE env.conf.DB_COLL_PERF query
  match env.OneJobPerf env.conf.MONGODB_DATABASE env.conf.DB_COLL_PERF query perf with
  | (perf, none) => ((some perf, none), [.SessionCopy, find, .SessionClose])
  | (_, some msg) => ((none, some (.ext msg)), [.SessionCopy, find, .SessionClose])

/-- The list `JobInfoIndexes`: the indexed info fields. -/
def JobInfoIndexes : List GoString :=
  ["name".toList, "submittime".toList, "completedtime".toList, "pipeline".toList,
   "clientgroups".toList, "project".toList, "service".toList, "user".toList, "priority".toList,
   "userattr.submission".toList]

/-- The loop of `HasInfoField` over the remaining elements of `JobInfoIndexes`. -/
def HasInfoField.loop (a : GoString) : List GoString → Bool
  | [] => false
  | b :: rest => if b = a then true else HasInfoField.loop a rest

/-- Function `HasInfoField`. -/
def HasInfoField (a : GoString) : Bool :=
  HasInfoField.loop a JobInfoIndexes

/-- Function `InitJobDB`: the actions in order (the results of `EnsureIndex` are dropped by the
code). -/
def InitJobDB (env : Env) : List Event :=
  let db := env.conf.MONGODB_DATABASE
  let cj := env.conf.DB_COLL_JOBS
  let cp := env.conf.DB_COLL_PERF
  [.SessionCopy,
   .EnsureIndex db cj ⟨["acl.owner".toList], false, true⟩,
   .EnsureIndex db cj ⟨["acl.read".toList], false, true⟩,
   .EnsureIndex db cj ⟨["acl.write".toList], false, true⟩,
   .EnsureIndex db cj ⟨["acl.delete".toList], false, true⟩,
   .EnsureIndex db cj ⟨["id".toList], true, false⟩,
   .EnsureIndex db cj ⟨["state".toList], false, true⟩,
   .EnsureIndex db cj ⟨["expiration".toList], false, true⟩,
   .EnsureIndex db cj ⟨["updatetime".toList], false, true⟩] ++
  JobInfoIndexes.map (fun v => Event.EnsureIndex db cj ⟨["info.".toList ++ v], false, true⟩) ++
  [.EnsureIndex db cp ⟨["id".toList], true, false⟩,
   .SessionClose]

/-- Function `InitClientGroupDB`. -/
def InitClientGroupDB (env : Env) : List Event :=
  let db := env.conf.MONGODB_DATABASE
  let cc := env.conf.DB_COLL_CGS
  [.SessionCopy,
   .EnsureIndex db cc ⟨["id".toList], true, false⟩,
   .EnsureIndex db cc ⟨["name".toList], true, false⟩,
   .EnsureIndex db cc ⟨["token".toList], true, false⟩,
   .SessionClose]

/-- The index expression `options[key]` with its presence flag, on a `map[string]int` given by
its entries. -/
def lookupOption (options : List (GoString × Int)) (key : GoString) : Option Int :=
  match options.find? (fun kv => decide (kv.1 = key)) with
  | some kv => some kv.2
  | none => none

/-- Function `dbFind`: the returned pair `(count, err)`, the jobs that `results` points to
afterwards (`none` when `results` is `nil`), and the actions in order.  The last error assigned
to `err` before a `return` is the one returned. -/
def dbFind (env : Env) (q : M) (results : Option (List Job)) (options : List (GoString × Int)) :
    (Int × error) × Option (List Job) × List Event :=
  let db := env.conf.MONGODB_DATABASE
  let coll := env.conf.DB_COLL_JOBS
  match env.Count db coll q with
  | (_, some msg) => ((0, some (.ext msg)), results, [.SessionCopy, .Count db coll q, .SessionClose])
  | (count, none) =>
    match lookupOption options "limit".toList with
    | some limit =>
      match lookupOption options "offset".toList with
      | some offset =>
        let all := env.All db coll q (some (limit, offset)) results
        match results with
        | some _ =>
          let init := env.JobsInit all.1
          ((count, init.2.2.map .ext), some init.1,
            [.SessionCopy, .Count db coll q, .All db coll q (some (limit, offset)),
             .JobsInit all.1, .SessionClose])
        | none =>
          ((count, all.2.map .ext), none,
            [.SessionCopy, .Count db coll q, .All db coll q (some (limit, offset)),
             .SessionClose])
      | none =>
        ((0, some (.New "store.db.Find options limit and offset must be used together".toList)),
          results, [.SessionCopy, .Count db coll q, .SessionClose])
    | none =>
      let all := env.All db coll q none results
      match results with
      | some _ =>
        let init := env.JobsInit all.1
        ((count, init.2.2.map .ext), some init.1,
          [.SessionCopy, .Count db coll q, .All db coll q none, .JobsInit all.1, .SessionClose])
      | none =>
        ((count, all.2.map .ext), none,
          [.SessionCopy, .Count db coll q, .All db coll q none, .SessionClose])

/-! ### The query language of the store, for the operators `dbAdminData` uses -/

/-- Value of a key in a document. -/
def lookupKey (d : M) (k : GoString) : Option GoValue :=
  match d.find? (fun kv => decide (kv.1 = k)) with
  | some kv => some kv.2
  | none => none

/-- Value at a dotted path (`info.completedtime`), given as its components. -/
def lookupPath : M → List GoString → Option GoValue
  | _, [] => none
  | d, [k] => lookupKey d k
  | d, k :: k2 :: ks =>
    match lookupKey d k with
    | some (.M sub) => lookupPath sub (k2 :: ks)
    | _ => none

/-- One operator of an operator document against the value of the field (`none`: the field is
absent).  `$gt` holds for a value of the same type that is greater; `$nin` holds unless the
value, or an element of an array value, is in the list. -/
def matchOp (field : Option GoValue) (op : GoString) (arg : GoValue) : Bool :=
  if op = "$gt".toList then
    match field, arg with
    | some (.Time a), .Time b => decide (a > b)
    | some (.int a), .int b => decide (a > b)
    | _, _ => false
  else if op = "$nin".toList then
    match arg with
    | .strings l =>
      match field with
      | some (.string s) => !l.contains s
      | some (.strings xs) => xs.all (fun x => !l.contains x)
      | _ => true
    | _ => false
  else false

/-- A condition on a field: an operator document, or a string to be equal to (or, for an array
value, to be among its elements). -/
def matchCond (field : Option GoValue) (cond : GoValue) : Bool :=
  match cond with
  | .M ops => ops.all (fun oa => matchOp field oa.1 oa.2)
  | .string v =>
    match field with
    | some (.string s) => decide (s = v)
    | some (.strings xs) => xs.contains v
    | _ => false
  | _ => false

/-- A query document without `$or`: every entry is a condition on the field it names. -/
def matchFields (q : M) (d : M) : Bool :=
  q.all (fun kc => matchCond (lookupPath d (Split kc.1 '.')) kc.2)

/-- A query document: every entry must hold; the entry `$or` holds when one of its clauses
does. -/
def mongoMatch (q : M) (d : M) : Bool :=
  q.all (fun kc =>
    if kc.1 = "$or".toList then
      match kc.2 with
      | .Ms clauses => clauses.any (fun c => matchFields c d)
      | _ => false
    else matchCond (lookupPath d (Split kc.1 '.')) kc.2)

/-- The query of a `Find` action. -/
def Event.query? : Event → Option M
  | .FindSelectAll _ _ q _ => some q
  | .FindOne _ _ q => some q
  | _ => none

/-! ## `lib/controller/jobController.go` -/

/-- What lies outside `jobController.go` and answers the calls of a handler during one
request: the configuration and the database (`env`), constants of other packages, the outcome
of `AdminAuthenticated(cx)` (which writes the 401 response itself when it answers `false`), the
query of the request (`Has`, `Value`, `All` of the type `Query`), the multipart form, the token
of the request, the methods of `Job` and `Jobs`, and the operations of the queue manager
`core.QMgr` (errors are given by their text, `none` being `nil`). -/
structure World where
  env : Env
  MongoDocNotFound : GoString
  JOB_STATS_ACTIVE : List GoString
  JOB_STAT_SUSPEND : GoString
  JOB_SUBMISSION : GoString
  AdminAuthenticated : Bool
  Has : GoString → Bool
  Value : GoString → GoString
  All : List (GoString × List GoString)
  ParseMultipartForm : List (GoString × GoString) × List (GoString × GoString) × Option GoString
  JobRegister : GoString × Option GoString
  CreateJobUpload : List (GoString × GoString) → List (GoString × GoString) → GoString →
    Job × Option GoString
  RetrieveToken : GoString × Option GoString
  SetDataToken : Job → GoString → Job
  TaskList : Job → List Nat
  IsJobRegistered : GoString → Bool
  ExportWorkflowRun : Job → Option Nat × Option GoString
  GetAll : M → GoString → GoString → List Job × Option GoString
  GetPaginated : M → Int → Int → GoString → GoString → List Job × Int × Option GoString
  GetActiveJobs : List GoString
  GetSuspendJobs : List GoString
  ResumeSuspendedJobs : Int
  ResumeSuspendedJob : GoString → Option GoString
  SuspendJob : GoString → GoString → Option GoString
  ResubmitJob : GoString → Option GoString
  RecomputeJob : GoString → GoString → Option GoString
  UpdateGroup : GoString → GoString → Option GoString
  UpdatePriority : GoString → Int → Option GoString
  DeleteJob : GoString → Option GoString
  DeleteSuspendedJobs : Int
  DeleteZombieJobs : Int

/-- Status `http.StatusBadRequest`. -/
def StatusBadRequest : Int := 400

/-- Status `http.StatusInternalServerError`. -/
def StatusInternalServerError : Int := 500

/-- Status `http.StatusNotImplemented`. -/
def StatusNotImplemented : Int := 501

/-- Handler `Options` (OPTIONS /job). -/
def Options (_w : World) : List Event :=
  [.LogRequest, .RespondWithOK]

/-- Handler `Create` (POST /job). -/
def Create (w : World) : List Event :=
  [.LogRequest] ++
  (if w.env.conf.ADMIN_AUTH then [Event.AdminAuthenticated] else []) ++
  (if w.env.conf.ADMIN_AUTH && (w.AdminAuthenticated == false) then []
   else
    [Event.ParseMultipartForm] ++
    (match w.ParseMultipartForm with
     | (_, _, some err) =>
       if err = "request Content-Type isn't multipart/form-data".toList then
         [.RespondWithErrorMessage "No job file is submitted".toList StatusBadRequest]
       else
         [.loggerError ("Error parsing form: ".toList ++ err), .RespondWithError StatusBadRequest]
     | (params, files, none) =>
       let has_upload := files.any (fun f => decide (f.1 = "upload".toList))
       let has_awf := files.any (fun f => decide (f.1 = "awf".toList))
       if !has_upload && !has_awf then
         [.RespondWithErrorMessage "No job script or awf is submitted".toList StatusBadRequest]
       else
         [Event.JobRegister] ++
         (match w.JobRegister with
          | (_, some err) =>
            [.loggerError ("Err@job_Create:GetNextJobNum: ".toList ++ err),
             .RespondWithErrorMessage err StatusBadRequest]
          | (jid, none) =>
            [Event.CreateJobUpload params files jid] ++
            (match w.CreateJobUpload params files jid with
             | (_, some err) =>
               [.loggerError ("Err@job_Create:CreateJobUpload: ".toList ++ err),
                .RespondWithErrorMessage err StatusBadRequest]
             | (job, none) =>
               let tokenStep : Job × List Event :=
                 match w.RetrieveToken with
                 | (token, none) => (w.SetDataToken job token, [.RetrieveToken, .SetDataToken job token])
                 | (_, some _) => (job, [.RetrieveToken])
               let job := tokenStep.1
               tokenStep.2 ++
               [.EnqueueTasksByJobId job.Id (w.TaskList job),
                .loggerEvent w.JOB_SUBMISSION
                  ("jobid=".toList ++ job.Id ++ ";jid=".toList ++ job.Jid ++ ";name=".toList
                    ++ job.Info.Name ++ ";project=".toList ++ job.Info.Project ++ ";user=".toList
                    ++ job.Info.User),
                .RespondWithData (.job job)]))))

/-- Handler `Read` (GET /job/{id}). -/
def Read (w : World) (id : GoString) : List Event :=
  [.LogRequest] ++
  (if w.env.conf.ADMIN_AUTH then [Event.AdminAuthenticated] else []) ++
  (if w.env.conf.ADMIN_AUTH && (w.AdminAuthenticated == false) then []
   else if w.Has "perf".toList then
    (LoadJobPerf w.env id).2 ++
    (match (LoadJobPerf w.env id).1 with
     | (_, some err) =>
       if err.Error = w.MongoDocNotFound then [.RespondWithNotFound]
       else
         [.loggerError ("Err@LoadJobPerf: ".toList ++ id ++ ":".toList ++ err.Error),
          .RespondWithErrorMessage ("job perf stats not found:".toList ++ id) StatusBadRequest]
     | (perf, none) => [.RespondWithData (.perf perf)])
   else
    (LoadJob w.env id).2 ++
    (match (LoadJob w.env id).1 with
     | (_, some err) =>
       if err.Error = w.MongoDocNotFound then [.RespondWithNotFound]
       else [.RespondWithErrorMessage ("job not found:".toList ++ id) StatusBadRequest]
     | (none, none) => [.IsJobRegistered id, .panic]
     | (some job, none) =>
       let job : Job :=
         if w.IsJobRegistered id then { job with Registered := true }
         else { job with Registered := false }
       [Event.IsJobRegistered id] ++
       (if w.Has "export".toList then
          let target := w.Value "export".toList
          if target = [] then
            [.RespondWithErrorMessage "lacking stage id from which the recompute starts".toList
               StatusBadRequest,
             .RespondWithData (.job job)]
          else if target = "taverna".toList then
            [Event.ExportWorkflowRun job] ++
            (match w.ExportWorkflowRun job with
             | (wfrun, some _) =>
               [.RespondWithErrorMessage
                  ("failed to export job to taverna workflowrun:".toList ++ id) StatusBadRequest,
                .RespondWithData (.wfrun wfrun)]
             | (wfrun, none) => [.RespondWithData (.wfrun wfrun)])
          else [.RespondWithData (.job job)]
        else [.RespondWithData (.job job)])))

/-- The keys of the query that `ReadMany` does not pass on to the database query. -/
def skipKeys : List GoString :=
  ["limit".toList, "offset".toList, "query".toList, "recent".toList, "order".toList,
   "direction".toList, "active".toList, "suspend".toList, "registered".toList]

/-- The loop of `ReadMany` over `query.All()` that fills the database query `q`: every key
outside `skipKeys` is constrained to the comma-separated values of its first value.  `none` is
the fault of `val[0]` on an empty slice. -/
def queryLoop : List (GoString × List GoString) → M → Option M
  | [], q => some q
  | (key, val) :: rest, q =>
    if skipKeys.contains key then queryLoop rest q
    else
      match index val 0 with
      | none => none
      | some v0 =>
        let queryvalues := Split v0 ','
        queryLoop rest
          (q.filter (fun kv => !decide (kv.1 = key)) ++
            [(key, GoValue.M [("$in".toList, .strings queryvalues)])])

/-- The paging loop of the `active` and the `suspend` listing of `ReadMany`: `member` is the
test `_, ok := act_jobs[job.Id]`, `skip` and `count` are the loop variables; the result is
`filtered_jobs`. -/
def filterLoop (member : GoString → Bool) (offset limit : Int) :
    List Job → Int → Int → List Job
  | [], _, _ => []
  | job :: rest, skip, count =>
    if member job.Id then
      if skip < offset then filterLoop member offset limit rest (skip + 1) count
      else
        let job := { job with Registered := true }
        if count + 1 = limit then [job]
        else job :: filterLoop member offset limit rest skip (count + 1)
    else filterLoop member offset limit rest skip count

/-- The first loop of the `registered` listing: the registered jobs, marked as such. -/
def registeredLoop (isRegistered : GoString → Bool) : List Job → List Job
  | [] => []
  | job :: rest =>
    if isRegistered job.Id then
      { job with Registered := true } :: registeredLoop isRegistered rest
    else registeredLoop isRegistered rest

/-- The second loop of the `registered` listing,
`for i := offset; i < len(registered_jobs); i++`, with the loop variables `i`, `count` and
`paged_jobs`; `none` is the fault of `registered_jobs[i]`.  The first argument bounds the number
of iterations (`registered_jobs.length + 1` is enough). -/
def pagingLoop (registered_jobs : List Job) (limit : Int) :
    Nat → Int → Int → List Job → Option (List Job)
  | 0, _, _, paged_jobs => some paged_jobs
  | fuel + 1, i, count, paged_jobs =>
    if i < registered_jobs.length then
      match index registered_jobs i with
      | none => none
      | some job =>
        if count + 1 = limit then some (paged_jobs ++ [job])
        else pagingLoop registered_jobs limit fuel (i + 1) (count + 1) (paged_jobs ++ [job])
    else some paged_jobs

/-- Handler `ReadMany` (GET /job). -/
def ReadMany (w : World) : List Event :=
  [.LogRequest] ++
  (if w.env.conf.ADMIN_AUTH then [Event.AdminAuthenticated] else []) ++
  (if w.env.conf.ADMIN_AUTH && (w.AdminAuthenticated == false) then []
   else
    let limit : Int :=
      if w.Has "limit".toList then (Atoi (w.Value "limit".toList)).1
      else w.env.conf.DEFAULT_PAGE_SIZE
    let offset : Int := if w.Has "offset".toList then (Atoi (w.Value "offset".toList)).1 else 0
    let order : GoString :=
      if w.Has "order".toList then w.Value "order".toList else "updatetime".toList
    let direction : GoString :=
      if w.Has "direction".toList then w.Value "direction".toList else "desc".toList
    let q : Option M :=
      if w.Has "query".toList then queryLoop w.All []
      else if w.Has "active".toList then
        some [("state".toList, .M [("$in".toList, .strings w.JOB_STATS_ACTIVE)])]
      else if w.Has "suspend".toList then some [("state".toList, .string w.JOB_STAT_SUSPEND)]
      else some []
    match q with
    | none => [.panic]
    | some q =>
      if w.Has "active".toList then
        [Event.GetAll q order direction] ++
        (match w.GetAll q order direction with
         | (_, some err) =>
           [.loggerError ("err ".toList ++ err), .RespondWithError StatusBadRequest]
         | (jobs, none) =>
           let act_jobs := w.GetActiveJobs
           let filtered_jobs :=
             filterLoop (fun jid => act_jobs.contains jid) offset limit jobs 0 0
           [.GetActiveJobs,
            .RespondWithPaginatedData filtered_jobs limit offset act_jobs.length])
      else if w.Has "suspend".toList then
        [Event.GetAll q order direction] ++
        (match w.GetAll q order direction with
         | (_, some err) =>
           [.loggerError ("err ".toList ++ err), .RespondWithError StatusBadRequest]
         | (jobs, none) =>
           let suspend_jobs := w.GetSuspendJobs
           let filtered_jobs :=
             filterLoop (fun jid => suspend_jobs.contains jid) offset limit jobs 0 0
           [.GetSuspendJobs,
            .RespondWithPaginatedData filtered_jobs limit offset suspend_jobs.length])
      else if w.Has "registered".toList then
        [Event.GetAll q order direction] ++
        (match w.GetAll q order direction with
         | (_, some err) =>
           [.loggerError ("err ".toList ++ err), .RespondWithError StatusBadRequest]
         | (jobs, none) =>
           let registered_jobs := registeredLoop w.IsJobRegistered jobs
           let total : Int := registered_jobs.length
           jobs.map (fun job => Event.IsJobRegistered job.Id) ++
           (match pagingLoop registered_jobs limit (registered_jobs.length + 1) offset 0 [] with
            | none => [.panic]
            | some paged_jobs => [.RespondWithPaginatedData paged_jobs limit offset total]))
      else
        [Event.GetPaginated q limit offset order direction] ++
        (match w.GetPaginated q limit offset order direction with
         | (_, _, some err) =>
           [.loggerError ("err ".toList ++ err), .RespondWithError StatusBadRequest]
         | (jobs, total, none) =>
           let filtered_jobs :=
             jobs.map (fun job =>
               if w.IsJobRegistered job.Id then { job with Registered := true }
               else { job with Registered := false })
           jobs.map (fun job => Event.IsJobRegistered job.Id) ++
           [.RespondWithPaginatedData filtered_jobs limit offset total]))

/-- Handler `UpdateMany` (PUT /job). -/
def UpdateMany (w : World) : List Event :=
  [.LogRequest] ++
  (if w.env.conf.ADMIN_AUTH then [Event.AdminAuthenticated] else []) ++
  (if w.env.conf.ADMIN_AUTH && (w.AdminAuthenticated == false) then []
   else if w.Has "resumeall".toList then
    let num := w.ResumeSuspendedJobs
    [.ResumeSuspendedJobs,
     .RespondWithData (.text (FormatInt num ++ " suspended jobs resumed".toList))]
   else [.RespondWithError StatusNotImplemented])

/-- Handler `Update` (PUT /job/{id}). -/
def Update (w : World) (id : GoString) : List Event :=
  [.LogRequest] ++
  (if w.env.conf.ADMIN_AUTH then [Event.AdminAuthenticated] else []) ++
  (if w.env.conf.ADMIN_AUTH && (w.AdminAuthenticated == false) then []
   else if w.Has "resume".toList then
    [Event.ResumeSuspendedJob id] ++
    (match w.ResumeSuspendedJob id with
     | some err =>
       [.RespondWithErrorMessage ("fail to resume job: ".toList ++ id ++ " ".toList ++ err)
          StatusBadRequest]
     | none => []) ++
    [.RespondWithData (.text ("job resumed: ".toList ++ id))]
   else if w.Has "suspend".toList then
    [Event.SuspendJob id "manually suspended".toList] ++
    (match w.SuspendJob id "manually suspended".toList with
     | some err =>
       [.RespondWithErrorMessage ("fail to suspend job: ".toList ++ id ++ " ".toList ++ err)
          StatusBadRequest]
     | none => []) ++
    [.RespondWithData (.text ("job suspended: ".toList ++ id))]
   else if w.Has "resubmit".toList || w.Has "reregister".toList then
    [Event.ResubmitJob id] ++
    (match w.ResubmitJob id with
     | some err =>
       [.RespondWithErrorMessage ("fail to resubmit job: ".toList ++ id ++ " ".toList ++ err)
          StatusBadRequest]
     | none => []) ++
    [.RespondWithData (.text ("job resubmitted: ".toList ++ id))]
   else if w.Has "recompute".toList then
    let stage := w.Value "recompute".toList
    (if stage = [] then
       [Event.RespondWithErrorMessage "lacking stage id from which the recompute starts".toList
          StatusBadRequest]
     else []) ++
    [Event.RecomputeJob id stage] ++
    (match w.RecomputeJob id stage with
     | some err =>
       [.RespondWithErrorMessage ("fail to recompute job: ".toList ++ id ++ " ".toList ++ err)
          StatusBadRequest]
     | none => []) ++
    [.RespondWithData (.text ("job recompute started: ".toList ++ id))]
   else if w.Has "clientgroup".toList then
    let newgroup := w.Value "clientgroup".toList
    (if newgroup = [] then
       [Event.RespondWithErrorMessage "lacking groupname".toList StatusBadRequest]
     else []) ++
    [Event.UpdateGroup id newgroup] ++
    (match w.UpdateGroup id newgroup with
     | some err =>
       [.RespondWithErrorMessage
          ("fail to update group for job: ".toList ++ id ++ " ".toList ++ err) StatusBadRequest]
     | none => []) ++
    [.RespondWithData (.text ("job group updated: ".toList ++ id ++ " to ".toList ++ newgroup))]
   else if w.Has "priority".toList then
    let priority_str := w.Value "priority".toList
    (if priority_str = [] then
       [Event.RespondWithErrorMessage "lacking priority value (0-3)".toList StatusBadRequest]
     else []) ++
    (match (Atoi priority_str).2 with
     | some _ =>
       [Event.RespondWithErrorMessage "need int for priority value (0-3)".toList
          StatusBadRequest]
     | none => []) ++
    [Event.UpdatePriority id (Atoi priority_str).1] ++
    (match w.UpdatePriority id (Atoi priority_str).1 with
     | some err =>
       [.RespondWithErrorMessage ("fail to priority for job: ".toList ++ id ++ " ".toList ++ err)
          StatusBadRequest]
     | none => []) ++
    [.RespondWithData
       (.text ("job priority updated: ".toList ++ id ++ " to ".toList ++ priority_str))]
   else if w.Has "settoken".toList then
    [Event.RetrieveToken] ++
    (match w.RetrieveToken with
     | (_, some err) =>
       [.RespondWithErrorMessage
          ("fail to retrieve token for job, pls set token in header: ".toList ++ id
            ++ " ".toList ++ err) StatusBadRequest]
     | (token, none) =>
       (LoadJob w.env id).2 ++
       (match (LoadJob w.env id).1 with
        | (_, some err) =>
          if err.Error = w.MongoDocNotFound then [.RespondWithNotFound]
          else
            [.loggerError ("Err@job_Read:LoadJob: ".toList ++ id ++ ":".toList ++ err.Error),
             .RespondWithErrorMessage ("job not found:".toList ++ id) StatusBadRequest]
        | (none, none) => [.panic]
        | (some job, none) =>
          [.SetDataToken job token,
           .RespondWithData (.text ("data token set for job: ".toList ++ id))]))
   else [.RespondWithData (.text "requested job operation not supported".toList)])

/-- Handler `Delete` (DELETE /job/{id}). -/
def Delete (w : World) (id : GoString) : List Event :=
  (if w.env.conf.ADMIN_AUTH then [Event.AdminAuthenticated] else []) ++
  (if w.env.conf.ADMIN_AUTH && (w.AdminAuthenticated == false) then []
   else
    [Event.LogRequest, .DeleteJob id] ++
    (match w.DeleteJob id with
     | some _ => [.RespondWithErrorMessage ("fail to delete job: ".toList ++ id) StatusBadRequest]
     | none => [.RespondWithData (.text ("job deleted: ".toList ++ id))]))

/-- Handler `DeleteMany` (DELETE /job). -/
def DeleteMany (w : World) : List Event :=
  (if w.env.conf.ADMIN_AUTH then [Event.AdminAuthenticated] else []) ++
  (if w.env.conf.ADMIN_AUTH && (w.AdminAuthenticated == false) then []
   else
    [Event.LogRequest] ++
    (if w.Has "suspend".toList then
       let num := w.DeleteSuspendedJobs
       [.DeleteSuspendedJobs,
        .RespondWithData (.text ("deleted ".toList ++ FormatInt num ++ " suspended jobs".toList))]
     else if w.Has "zombie".toList then
       let num := w.DeleteZombieJobs
       [.DeleteZombieJobs,
        .RespondWithData (.text ("deleted ".toList ++ FormatInt num ++ " zombie jobs".toList))]
     else [.RespondWithError StatusNotImplemented]))

/-- The response a handler writes itself (the 401 of `AdminAuthenticated` is not among
them). -/
def Event.isResponse : Event → Bool
  | .RespondWithOK => true
  | .RespondWithData _ => true
  | .RespondWithPaginatedData _ _ _ _ => true
  | .RespondWithErrorMessage _ _ => true
  | .RespondWithError _ => true
  | .RespondWithNotFound => true
  | _ => false

/-- An error response. -/
def Event.isErrorResponse : Event → Bool
  | .RespondWithErrorMessage _ _ => true
  | .RespondWithError _ => true
  | .RespondWithNotFound => true
  | _ => false

/-- A call of an operation of `core.QMgr` or of the persistence layer. -/
def Event.isOperation : Event → Bool
  | .SessionCopy => true
  | .SessionClose => true
  | .Upsert _ _ _ _ => true
  | .Update _ _ _ _ => true
  | .FindSelectAll _ _ _ _ => true
  | .FindOne _ _ _ => true
  | .JobInit _ => true
  | .JobSave _ => true
  | .JobRegister => true
  | .CreateJobUpload _ _ _ => true
  | .SetDataToken _ _ => true
  | .EnqueueTasksByJobId _ _ => true
  | .IsJobRegistered _ => true
  | .GetAll _ _ _ => true
  | .GetPaginated _ _ _ _ _ => true
  | .GetActiveJobs => true
  | .GetSuspendJobs => true
  | .ResumeSuspendedJobs => true
  | .ResumeSuspendedJob _ => true
  | .SuspendJob _ _ => true
  | .ResubmitJob _ => true
  | .RecomputeJob _ _ => true
  | .UpdateGroup _ _ => true
  | .UpdatePriority _ _ => true
  | .DeleteJob _ => true
  | .DeleteSuspendedJobs => true
  | .DeleteZombieJobs => true
  | _ => false

/-! ## `lib/core/cwl/cwl.go` -/

/-- Function `strings.HasPrefix`. -/
def HasPrefix (s start : GoString) : Bool :=
  start.isPrefixOf s

/-- The search of `strings.Index` from position `pos` on. -/
def indexFrom (substr : GoString) : GoString → Int → Int
  | [], pos => if substr = [] then pos else -1
  | c :: cs, pos =>
    if substr.isPrefixOf (c :: cs) then pos else indexFrom substr cs (pos + 1)

/-- Function `strings.Index(s, substr)`: the position of the first occurrence of `substr` in
`s`, or `-1` (positions count characters; the code only compares the result with `-1`). -/
def Index (s substr : GoString) : Int :=
  indexFrom substr s 0

/-- The scan of `strings.Replace(s, old, new, -1)` for a non-empty `old`; `skip` is the number
of characters of an occurrence of `old` still to be passed over. -/
def replaceAll (old new : GoString) : GoString → Nat → GoString
  | [], _ => []
  | _ :: cs, skip + 1 => replaceAll old new cs skip
  | c :: cs, 0 =>
    if old.isPrefixOf (c :: cs) then new ++ replaceAll old new cs (old.length - 1)
    else c :: replaceAll old new cs 0

/-- Function `strings.Replace(s, old, new, -1)` for a non-empty `old`. -/
def Replace (s old new : GoString) : GoString :=
  replaceAll old new s 0

/-- A value of type `interface{}` in a generic CWL object, as far as the code tells values
apart: the `nil` interface (also what a missing key yields), a string, a
`map[interface{}]interface{}`, or a value of another type. -/
inductive CwlValue where
  | nil
  | string (s : GoString)
  | map (handle : Nat)
  | other (handle : Nat)
  deriving DecidableEq

/-- The type `CWL_object_generic`, a `map[string]interface{}`, as the list of its entries. -/
abbrev CWL_object_generic := List (GoString × CwlValue)

/-- The index expression `elem[key]`. -/
def CWL_object_generic.get (elem : CWL_object_generic) (key : GoString) : CwlValue :=
  match elem.find? (fun kv => decide (kv.1 = key)) with
  | some kv => kv.2
  | none => .nil

/-- The assignment `elem[key] = v`. -/
def CWL_object_generic.set (elem : CWL_object_generic) (key : GoString) (v : CwlValue) :
    CWL_object_generic :=
  elem.filter (fun kv => !decide (kv.1 = key)) ++ [(key, v)]

/-- The struct `CWL_document_generic`. -/
structure CWL_document_generic where
  CwlVersion : GoString
  Graph : List CWL_object_generic
  deriving DecidableEq

/-- An input parameter of a workflow (declared outside the sources at hand), with its `Id`. -/
structure InputParameter where
  Id : GoString
  handle : Nat
  deriving DecidableEq

/-- A workflow (declared outside the sources at hand), with its `Inputs`. -/
structure Workflow where
  Inputs : List InputParameter
  handle : Nat
  deriving DecidableEq

/-- A `File` (declared outside the sources at hand), with its `Id`. -/
structure File where
  Id : GoString
  handle : Nat
  deriving DecidableEq

/-- The objects that `Parse_cwl_document` adds to the collection. -/
inductive CWL_object where
  | CommandLineTool (handle : Nat)
  | InputParameter (input : InputParameter)
  | Workflow (workflow : Workflow)
  | File (file : File)
  deriving DecidableEq

/-- The type `CWL_collection`, as the list of the objects added to it. -/
abbrev CWL_collection := List CWL_object

/-- A value of the interface `Requirement` of `requirements.go`: its class, which `GetClass()`
returns, and the rest of the value. -/
structure Requirement where
  Class : GoString
  handle : Nat
  deriving DecidableEq

/-- Method `GetClass` of a requirement. -/
def Requirement.GetClass (r : Requirement) : GoString :=
  r.Class

/-- What lies outside `cwl.go` and answers its calls: the YAML and the JSON parser (handed the
data and the document to fill), `CreateRequirementArray` as called on the hints of an element
(the call site takes an error and the new hints), `getCommandLineTool`, `getWorkflow`,
`mapstructure.Decode` into a `File`, and `collection.Add`.  Errors are given by their text. -/
structure CwlEnv where
  yamlUnmarshal : GoString → CWL_document_generic → CWL_document_generic × Option GoString
  jsonUnmarshal : GoString → CWL_document_generic → CWL_document_generic × Option GoString
  CreateRequirementArray : CwlValue → Option GoString × CwlValue
  getCommandLineTool : CWL_object_generic → Nat × Option GoString
  getWorkflow : CWL_object_generic → Workflow × Option GoString
  Decode : CWL_object_generic → File → File × Option GoString
  Add : CWL_collection → CWL_object → CWL_collection × Option GoString

/-- The observable actions of `cwl.go` and `requirements.go`, in the order in which they
happen. -/
inductive CwlEvent where
  | loggerDebug (level : Int) (msg : GoString)
  | loggerError (msg : GoString)
  | Println (text : GoString)
  | Printf (text : GoString)
  | spewDump (doc : CWL_document_generic)
  | yamlUnmarshal (data : GoString)
  | jsonUnmarshal (data : GoString)
  | CreateRequirementArray (hints : CwlValue)
  | getCommandLineTool (elem : CWL_object_generic)
  | getWorkflow (elem : CWL_object_generic)
  | Decode (elem : CWL_object_generic)
  | Add (object : CWL_object)
  | spewDumpRequirements (array : List Requirement)
  deriving DecidableEq

/-- Function `Unmarshal`, for the two parsers given: the returned error, the value `v` points
to afterwards, and the actions.  The named result `err` is declared `nil` and no statement
before the test `err != nil` assigns to it (the parsers' errors are `err_yaml` and
`err_json`). -/
def Unmarshal {V : Type} (yamlUnmarshal jsonUnmarshal : GoString → V → V × Option GoString)
    (data : GoString) (v : V) : error × V × List CwlEvent :=
  let err : error := none
  let yaml := yamlUnmarshal data v
  let parsed : V × List CwlEvent :=
    match yaml.2 with
    | some err_yaml =>
      let json := jsonUnmarshal data yaml.1
      (json.1,
        [.yamlUnmarshal data,
         .loggerDebug 1 ("CWL YAML unmarshal error, (try json...) : ".toList ++ err_yaml),
         .jsonUnmarshal data] ++
        (match json.2 with
         | some err_json => [.loggerDebug 1 ("CWL JSON unmarshal error: ".toList ++ err_json)]
         | none => []))
    | none => (yaml.1, [.yamlUnmarshal data])
  let err : error :=
    if err ≠ none then some (.New "Could not parse document as JSON or YAML".toList) else err
  (err, parsed.1, parsed.2)

/-- The loop of `Parse_cwl_document` over the inputs of a workflow: `none` when all inputs are
added, else the error to return; with the collection and the actions. -/
def inputsLoop (env : CwlEnv) :
    List InputParameter → CWL_collection → Option GoError × CWL_collection × List CwlEvent
  | [], collection => (none, collection, [])
  | input :: rest, collection =>
    if input.Id = [] then (some (.New "input has no ID".toList), collection, [])
    else
      let input : InputParameter :=
        if !HasPrefix input.Id "inputs.".toList then
          { input with Id := "inputs.".toList ++ input.Id }
        else input
      match env.Add collection (.InputParameter input) with
      | (collection, some msg) => (some (.ext msg), collection, [.Add (.InputParameter input)])
      | (collection, none) =>
        let r := inputsLoop env rest collection
        (r.1, r.2.1, CwlEvent.Add (.InputParameter input) :: r.2.2)

/-- The loop of `Parse_cwl_document` over `cwl_gen.Graph`, entered with the current value of
`err`: the returned error and the collection (`none` is the run-time fault of the type
assertion `elem["id"].(string)` on a value that is no string), and the actions. -/
def graphLoop (env : CwlEnv) :
    List CWL_object_generic → error → CWL_collection →
      Option (error × CWL_collection) × List CwlEvent
  | [], err, collection => (some (err, collection), [])
  | elem :: rest, _, collection =>
    match elem.get "class".toList with
    | .string cwl_object_type =>
      let ok := true
      match elem.get "id".toList with
      | .string cwl_object_id =>
        if !ok then (some (some (.New "object has no member id".toList), collection), [])
        else
          let hints : Option GoString × CWL_object_generic × List CwlEvent :=
            match elem.get "hints".toList with
            | .map h =>
              let r := env.CreateRequirementArray (.map h)
              (r.1, elem.set "hints".toList r.2, [.CreateRequirementArray (.map h)])
            | _ => (none, elem, [])
          match hints with
          | (some msg, _, ev) => (some (some (.ext msg), collection), ev)
          | (none, elem, ev) =>
            let step : error × CWL_collection × List CwlEvent × Bool :=
              if cwl_object_type = "CommandLineTool".toList then
                match env.getCommandLineTool elem with
                | (_, some xerr) => (some (.ext xerr), collection, [.getCommandLineTool elem], false)
                | (result, none) =>
                  match env.Add collection (.CommandLineTool result) with
                  | (collection, some msg) =>
                    (some (.ext msg), collection,
                      [.getCommandLineTool elem, .Add (.CommandLineTool result)], false)
                  | (collection, none) =>
                    (none, collection,
                      [.getCommandLineTool elem, .Add (.CommandLineTool result)], true)
              else if cwl_object_type = "Workflow".toList then
                match env.getWorkflow elem with
                | (_, some xerr) => (some (.ext xerr), collection, [.getWorkflow elem], false)
                | (workflow, none) =>
                  match inputsLoop env workflow.Inputs collection with
                  | (some e, collection, ev2) =>
                    (some e, collection, CwlEvent.getWorkflow elem :: ev2, false)
                  | (none, collection, ev2) =>
                    match env.Add collection (.Workflow workflow) with
                    | (collection, some msg) =>
                      (some (.ext msg), collection,
                        CwlEvent.getWorkflow elem :: ev2 ++ [.Add (.Workflow workflow)], false)
                    | (collection, none) =>
                      (none, collection,
                        CwlEvent.getWorkflow elem :: ev2 ++ [.Add (.Workflow workflow)], true)
              else if cwl_object_type = "File".toList then
                match env.Decode elem ⟨[], 0⟩ with
                | (_, some msg) => (some (.ext msg), collection, [.Decode elem], false)
                | (cwl_file, none) =>
                  let cwl_file : File :=
                    if cwl_file.Id = [] then { cwl_file with Id := cwl_object_id } else cwl_file
                  match env.Add collection (.File cwl_file) with
                  | (collection, some msg) =>
                    (some (.ext msg), collection, [.Decode elem, .Add (.File cwl_file)], false)
                  | (collection, none) =>
                    (none, collection, [.Decode elem, .Add (.File cwl_file)], true)
              else (some (.New "object unknown".toList), collection, [], false)
            match step with
            | (err, collection, ev2, false) => (some (err, collection), ev ++ ev2)
            | (err, collection, ev2, true) =>
              let r := graphLoop env rest err collection
              (r.1,
                ev ++ ev2 ++
                  [.Printf "----------------------------------------------\n".toList] ++ r.2)
      | _ => (none, [])
    | _ => (some (some (.New "object has no member class".toList), collection), [])

/-- Function `Parse_cwl_document`: the returned error and the collection afterwards (`none` is
a run-time fault), and the actions in order. -/
def Parse_cwl_document (env : CwlEnv) (collection : CWL_collection) (yaml_str : GoString) :
    Option (error × CWL_collection) × List CwlEvent :=
  let graph_pos := Index yaml_str "$graph:".toList
  if graph_pos = -1 then
    (some (some (.New "yaml parisng error. keyword $graph missing".toList), collection), [])
  else
    let yaml_str := Replace yaml_str "$graph".toList "graph".toList
    let cwl_gen : CWL_document_generic := ⟨[], []⟩
    let u := Unmarshal env.yamlUnmarshal env.jsonUnmarshal yaml_str cwl_gen
    let err := u.1
    let cwl_gen := u.2.1
    let ev : List CwlEvent :=
      u.2.2 ++
      (match err with
       | some e =>
         [.loggerDebug 1 "CWL unmarshal error".toList, .loggerError ("error: ".toList ++ e.Error)]
       | none => []) ++
      [.Println "-------------- raw CWL".toList, .spewDump cwl_gen,
       .Println "-------------- Start real parsing".toList]
    let r := graphLoop env cwl_gen.Graph err collection
    (r.1, ev ++ r.2)

/-! ## `lib/core/cwl/requirements.go` -/

/-- The loop of `GetRequirement` over the elements from index `i` on: the index of the first
element of class `r_name`. -/
def GetRequirement.loop (r_name : GoString) : List Requirement → Nat → Option Nat
  | [], _ => none
  | r :: rest, i => if r.GetClass = r_name then some i else GetRequirement.loop r_name rest (i + 1)

/-- Function `GetRequirement`.  The array pointer is `none` when `nil`; the returned pointer
`&(*array_ptr)[i]` is given by the index `i`. -/
def GetRequirement (r_name : GoString) (array_ptr : Option (List Requirement)) :
    (Option Nat × error) × List CwlEvent :=
  match array_ptr with
  | none =>
    ((none, some (.New ("(GetRequirement) requirement array is empty, ".toList ++ r_name
      ++ " not found".toList))), [])
  | some array =>
    match GetRequirement.loop r_name array 0 with
    | some i => ((some i, none), [])
    | none =>
      ((none, some (.New ("(GetRequirement) requirement ".toList ++ r_name
        ++ " not found".toList))),
        [.Println "Requirement array:".toList, .spewDumpRequirements array])

/-- The loop of `AddRequirement` over the old array: whether an element has the class of the
new requirement (the loop then returns the old pointer). -/
def AddRequirement.loop (new_r_class : GoString) : List Requirement → Bool
  | [] => false
  | r :: rest => if r.GetClass = new_r_class then true else AddRequirement.loop new_r_class rest

/-- Function `AddRequirement`: the returned pointer (`none` is `nil`) and error. -/
def AddRequirement (new_r : Requirement) (old_array_ptr : Option (List Requirement)) :
    Option (List Requirement) × error :=
  let new_r_class := new_r.GetClass
  match old_array_ptr with
  | some old_array =>
    if AddRequirement.loop new_r_class old_array then (old_array_ptr, none)
    else (some (old_array ++ [new_r]), none)
  | none => (some [new_r], none)

/-- The loop of `DeleteRequirement` over the old array, with the array `new_array` built so
far. -/
def DeleteRequirement.loop (requirement_class : GoString) :
    List Requirement → List Requirement → List Requirement
  | [], new_array => new_array
  | r :: rest, new_array =>
    if r.GetClass ≠ requirement_class then
      DeleteRequirement.loop requirement_class rest (new_array ++ [r])
    else DeleteRequirement.loop requirement_class rest new_array

/-- Function `DeleteRequirement`: the returned pointer (`none` is `nil`) and error. -/
def DeleteRequirement (requirement_class : GoString) (old_array_ptr : Option (List Requirement)) :
    Option (List Requirement) × error :=
  match old_array_ptr with
  | none => (none, none)
  | some old_array => (some (DeleteRequirement.loop requirement_class old_array []), none)

/-! ## Notions used to state the properties -/

/-- The text `r` is what stands after the last `sep` of `s`: `r` has no `sep`, and `s` is `r`
itself or ends in `sep` followed by `r`. -/
def IsTextAfterLast (sep : Char) (s r : GoString) : Prop :=
  sep ∉ r ∧ (s = r ∨ ∃ p : GoString, s = p ++ sep :: r)

/-- A decimal integer: an optional sign followed by at least one digit, and digits only. -/
def isDecimalInteger : GoString → Bool
  | [] => false
  | c :: cs =>
    if c = '+' ∨ c = '-' then !cs.isEmpty && cs.all isDigit
    else (c :: cs).all isDigit

/-- A task-identifier parser that keeps the text it is handed, in the field `JobId`. -/
def recordingParser (s : GoString) : Task_Unique_Identifier × error :=
  (⟨s, [], []⟩, none)

/-- The collection that `conf` assigns to the type of an entry. -/
def DbEntry.collection (conf : Conf) : DbEntry → GoString
  | .Job _ => conf.DB_COLL_JOBS
  | .JobPerf _ => conf.DB_COLL_PERF
  | .ClientGroup _ => conf.DB_COLL_CGS
  | .other _ => []

/-- The `Id` of an entry. -/
def DbEntry.Id : DbEntry → GoString
  | .Job t => t.Id
  | .JobPerf t => t.Id
  | .ClientGroup t => t.Id
  | .other _ => []

/-- An entry is a `*Job`, a `*JobPerf` or a `*ClientGroup`. -/
def DbEntry.isStored : DbEntry → Bool
  | .other _ => false
  | _ => true

/-- A job with the given id and nothing else. -/
def Job.withId (id : GoString) : Job :=
  ⟨id, [], ⟨[], [], []⟩, false⟩

/-- An environment in which every call succeeds and nothing is stored. -/
def Env.quiet : Env where
  conf := ⟨true, "AWEDB".toList, "Jobs".toList, "Perf".toList, "ClientGroups".toList, 25⟩
  Now := 0
  AddDate := fun t _ months _ => t + months * 2592000000
  Marshal := fun _ => ([0, 0, 0, 0, 0], none)
  Upsert := fun _ _ _ _ => none
  Update := fun _ _ _ _ => none
  FindSelectAll := fun _ _ _ _ => ([], none)
  NewJob := Job.withId []
  OneJob := fun _ _ _ job => (job, none)
  OneJobPerf := fun _ _ _ perf => (perf, none)
  Init := fun job => (job, false, none)
  Count := fun _ _ _ => (3, none)
  All := fun _ _ _ _ _ => ([], none)
  JobsInit := fun jobs => (jobs, 0, none)

/-- A request without query, form or token, by a caller whom `AdminAuthenticated` rejects, in
a world where every operation succeeds. -/
def World.quiet : World where
  env := Env.quiet
  MongoDocNotFound := "not found".toList
  JOB_STATS_ACTIVE := ["queuing".toList, "in-progress".toList]
  JOB_STAT_SUSPEND := "suspend".toList
  JOB_SUBMISSION := "JQ".toList
  AdminAuthenticated := false
  Has := fun _ => false
  Value := fun _ => []
  All := []
  ParseMultipartForm := ([], [], none)
  JobRegister := ("1".toList, none)
  CreateJobUpload := fun _ _ jid => ({ Job.withId "job".toList with Jid := jid }, none)
  RetrieveToken := ([], some "no token".toList)
  SetDataToken := fun job _ => job
  TaskList := fun _ => []
  IsJobRegistered := fun _ => false
  ExportWorkflowRun := fun _ => (none, none)
  GetAll := fun _ _ _ => ([], none)
  GetPaginated := fun _ _ _ _ _ => ([], 0, none)
  GetActiveJobs := []
  GetSuspendJobs := []
  ResumeSuspendedJobs := 0
  ResumeSuspendedJob := fun _ => none
  SuspendJob := fun _ _ => none
  ResubmitJob := fun _ => none
  RecomputeJob := fun _ _ => none
  UpdateGroup := fun _ _ => none
  UpdatePriority := fun _ _ => none
  DeleteJob := fun _ => none
  DeleteSuspendedJobs := 0
  DeleteZombieJobs := 0

/-- The environment `Env.quiet`, except that `job.Init()` fails on every job. -/
def Env.initFails : Env :=
  { Env.quiet with Init := fun job => (job, false, some "task list is broken".toList) }

/-- A request `PUT /job/{id}?resume` by an authenticated caller, in a world where
`QMgr.ResumeSuspendedJob` fails. -/
def World.resumeFails : World :=
  { World.quiet with
    AdminAuthenticated := true
    Has := fun key => decide (key = "resume".toList)
    ResumeSuspendedJob := fun _ => some "job is not suspended".toList }

/-- A job document: completed at instant 5. -/
def completedJobDoc : M :=
  [("id".toList, .string "j1".toList), ("state".toList, .string "completed".toList),
   ("info".toList, .M [("name".toList, .string "n".toList), ("completedtime".toList, .Time 5)])]

/-- A request without selector by an authenticated caller, in a world where every operation
succeeds. -/
def World.authenticated : World :=
  { World.quiet with AdminAuthenticated := true }

/-- A request `PUT /job/{id}?recompute=` (empty stage) by an authenticated caller. -/
def World.recomputeEmpty : World :=
  { World.quiet with
    AdminAuthenticated := true
    Has := fun key => decide (key = "recompute".toList)
    Value := fun _ => [] }

/-- A request `PUT /job/{id}?priority=<value>` by an authenticated caller. -/
def World.priority (value : GoString) : World :=
  { World.quiet with
    AdminAuthenticated := true
    Has := fun key => decide (key = "priority".toList)
    Value := fun key => if key = "priority".toList then value else [] }

/-- A request `GET /job/{id}?perf` by an authenticated caller, while the store cannot be
reached. -/
def World.perfReadFails : World :=
  { World.quiet with
    AdminAuthenticated := true
    Has := fun key => decide (key = "perf".toList)
    env := { Env.quiet with OneJobPerf := fun _ _ _ perf => (perf, some "no reachable servers".toList) } }

/-- A request `GET /job/{id}` by an authenticated caller, while the store cannot be
reached. -/
def World.jobReadFails : World :=
  { World.quiet with
    AdminAuthenticated := true
    env := { Env.quiet with OneJob := fun _ _ _ job => (job, some "no reachable servers".toList) } }

/-- Three fetched jobs `a`, `b`, `c`. -/
def threeJobs : List Job :=
  [Job.withId "a".toList, Job.withId "b".toList, Job.withId "c".toList]

/-- A request `GET /job?active&offset=1&limit=1` by an authenticated caller; the store has the
jobs `a`, `b`, `c`, of which `b` and `c` are active. -/
def World.activeListing : World :=
  { World.quiet with
    AdminAuthenticated := true
    Has := fun key =>
      decide (key = "active".toList) || decide (key = "offset".toList)
        || decide (key = "limit".toList)
    Value := fun key =>
      if key = "offset".toList then "1".toList
      else if key = "limit".toList then "1".toList else []
    GetAll := fun _ _ _ => (threeJobs, none)
    GetActiveJobs := ["b".toList, "c".toList] }

/-- The response 404. -/
def Event.isNotFound : Event → Bool
  | .RespondWithNotFound => true
  | _ => false

/-- The status of a response: 200 for the plain and the data responses, 404 for not-found, and
the status handed to the error responses. -/
def Event.status : Event → Option Int
  | .RespondWithOK => some 200
  | .RespondWithData _ => some 200
  | .RespondWithPaginatedData _ _ _ _ => some 200
  | .RespondWithErrorMessage _ status => some status
  | .RespondWithError status => some status
  | .RespondWithNotFound => some 404
  | _ => none

/-- The caller passes the admin check of a handler: `ADMIN_AUTH` is off or
`AdminAuthenticated` answers `true`. -/
def World.passesAuth (w : World) : Bool :=
  !(w.env.conf.ADMIN_AUTH && (w.AdminAuthenticated == false))

/-- The actions of a handler up to the admin check, for a handler that logs first. -/
def World.preamble (w : World) : List Event :=
  [.LogRequest] ++ (if w.env.conf.ADMIN_AUTH then [Event.AdminAuthenticated] else [])

/-- The local variable `limit` of `ReadMany`. -/
def ReadMany.limit (w : World) : Int :=
  if w.Has "limit".toList then (Atoi (w.Value "limit".toList)).1
  else w.env.conf.DEFAULT_PAGE_SIZE

/-- The local variable `offset` of `ReadMany`. -/
def ReadMany.offset (w : World) : Int :=
  if w.Has "offset".toList then (Atoi (w.Value "offset".toList)).1 else 0

/-- The local variable `order` of `ReadMany`. -/
def ReadMany.order (w : World) : GoString :=
  if w.Has "order".toList then w.Value "order".toList else "updatetime".toList

/-- The local variable `direction` of `ReadMany`. -/
def ReadMany.direction (w : World) : GoString :=
  if w.Has "direction".toList then w.Value "direction".toList else "desc".toList

/-- The database query `q` of `ReadMany` (`none`: building it faults). -/
def ReadMany.q (w : World) : Option M :=
  if w.Has "query".toList then queryLoop w.All []
  else if w.Has "active".toList then
    some [("state".toList, .M [("$in".toList, .strings w.JOB_STATS_ACTIVE)])]
  else if w.Has "suspend".toList then some [("state".toList, .string w.JOB_STAT_SUSPEND)]
  else some []

/-- The job with `Registered` set. -/
def markRegistered (job : Job) : Job :=
  { job with Registered := true }

/-- The page `take limit (drop offset (the jobs of J whose id is in A, marked registered))`. -/
def pageOf (A : List GoString) (offset limit : Int) (J : List Job) : List Job :=
  (((J.filter (fun job => A.contains job.Id)).map markRegistered).drop offset.toNat).take
    limit.toNat

/-- The indexes that `InitJobDB` is to ensure on the jobs collection. -/
def jobsIndexes : List mgoIndex :=
  [⟨["acl.owner".toList], false, true⟩, ⟨["acl.read".toList], false, true⟩,
   ⟨["acl.write".toList], false, true⟩, ⟨["acl.delete".toList], false, true⟩,
   ⟨["id".toList], true, false⟩, ⟨["state".toList], false, true⟩,
   ⟨["expiration".toList], false, true⟩, ⟨["updatetime".toList], false, true⟩] ++
  JobInfoIndexes.map (fun f => ⟨["info.".toList ++ f], false, true⟩)

/-- Parsers that reject every input, and collaborators that accept everything. -/
def CwlEnv.noParse : CwlEnv where
  yamlUnmarshal := fun _ v => (v, some "yaml: mapping values are not allowed in this context".toList)
  jsonUnmarshal := fun _ v => (v, some "invalid character 'a' looking for beginning of value".toList)
  CreateRequirementArray := fun hints => (none, hints)
  getCommandLineTool := fun _ => (0, none)
  getWorkflow := fun _ => (⟨[], 0⟩, none)
  Decode := fun _ file => (file, none)
  Add := fun collection object => (collection ++ [object], none)

/-- A YAML parser that reads the given graph, and collaborators that accept everything. -/
def CwlEnv.reads (graph : List CWL_object_generic) : CwlEnv :=
  { CwlEnv.noParse with yamlUnmarshal := fun _ v => ({ v with Graph := graph }, none) }

/-- A request `GET /job?registered&offset=-1` by an authenticated caller; the store has the
jobs `a`, `b`, `c`, all registered. -/
def World.registeredNegative : World :=
  { World.quiet with
    AdminAuthenticated := true
    Has := fun key => decide (key = "registered".toList) || decide (key = "offset".toList)
    Value := fun key => if key = "offset".toList then "-1".toList else []
    GetAll := fun _ _ _ => (threeJobs, none)
    IsJobRegistered := fun _ => true }

/-- A request `PUT /job/{id}?suspend&priority=2&settoken` by an authenticated caller. -/
def World.suspendAndMore : World :=
  { World.quiet with
    AdminAuthenticated := true
    Has := fun key =>
      decide (key = "suspend".toList) || decide (key = "priority".toList)
        || decide (key = "settoken".toList)
    Value := fun key => if key = "priority".toList then "2".toList else [] }

/-- The calls of the six job operations of the queue manager that `Update` can invoke. -/
def Event.isUpdateOp : Event → Bool
  | .ResumeSuspendedJob _ => true
  | .SuspendJob _ _ => true
  | .ResubmitJob _ => true
  | .RecomputeJob _ _ => true
  | .UpdateGroup _ _ => true
  | .UpdatePriority _ _ => true
  | _ => false

/-- The actions of the `settoken` branch of `Update`: reading the token of the request and
setting it on the job. -/
def Event.isSetToken : Event → Bool
  | .RetrieveToken => true
  | .SetDataToken _ _ => true
  | _ => false

/-- The page that paging with `offset` and `limit` takes from the selected jobs: from index
`offset` on, and at most `limit` of them when `limit ≥ 1` (a `limit` below 1 is never reached by
the counter, so nothing is cut off). -/
def pageFrom (offset limit : Int) (selected : List Job) : List Job :=
  if 1 ≤ limit then (selected.drop offset.toNat).take limit.toNat
  else selected.drop offset.toNat

/-- Three requirements of different classes. -/
def threeRequirements : List Requirement :=
  [⟨"DockerRequirement".toList, 1⟩, ⟨"ShockRequirement".toList, 2⟩,
   ⟨"EnvVarRequirement".toList, 3⟩]

/-- The paging that `dbFind` applies to the result query: `Limit(limit).Skip(offset)` when both
options are present, none otherwise. -/
def pageOption (options : List (GoString × Int)) : Option (Int × Int) :=
  match lookupOption options "limit".toList, lookupOption options "offset".toList with
  | some limit, some offset => some (limit, offset)
  | _, _ => none

/-- The environment `Env.quiet`, except that the result query `query.All` fails. -/
def Env.allFails : Env :=
  { Env.quiet with All := fun _ _ _ _ _ => ([], some "cursor lost".toList) }

/-! ## Lemmas on `Split`, `Atoi` and the Go index and slice expressions -/

theorem Split_ne_nil (s : GoString) (sep : Char) : Split s sep ≠ [] := by
  cases s with
  | nil => simp [Split]
  | cons c cs =>
    simp only [Split]
    split
    · simp
    · split <;> simp

theorem Split_of_not_mem (sep : Char) (r : GoString) (h : sep ∉ r) : Split r sep = [r] := by
  induction r with
  | nil => rfl
  | cons c cs ih =>
    have hc : c ≠ sep := fun e => h (by simp [e])
    have hcs : sep ∉ cs := fun e => h (by simp [e])
    simp [Split, hc, ih hcs]

theorem Split_append_sep (sep : Char) (p r : GoString) :
    Split (p ++ sep :: r) sep = Split p sep ++ Split r sep := by
  induction p with
  | nil => simp [Split]
  | cons c cs ih =>
    by_cases hc : c = sep
    · simp [Split, hc, ih]
    · have hne := Split_ne_nil cs sep
      cases hsp : Split cs sep with
      | nil => exact absurd hsp hne
      | cons piece rest =>
        have e : Split (c :: (cs ++ sep :: r)) sep = (c :: piece) :: (rest ++ Split r sep) := by
          simp only [Split, if_neg hc]
          rw [ih, hsp]
          rfl
        have e2 : Split (c :: cs) sep = (c :: piece) :: rest := by
          simp only [Split, if_neg hc]
          rw [hsp]
        rw [List.cons_append, e, e2]
        rfl

theorem index_length_sub_one {α : Type} (a : List α) (x : α) :
    index (a ++ [x]) (((a ++ [x]).length : Int) - 1) = some x := by
  have h1 : (((a ++ [x]).length : Int) - 1) = (a.length : Int) := by
    simp
  rw [h1]
  simp [index]

theorem slice_zero_some {α : Type} (a : List α) (hi : Int) (h0 : 0 ≤ hi) (h1 : hi ≤ a.length) :
    slice a 0 hi = some (a.take hi.toNat) := by
  simp [slice, h0, h1]

theorem atoiFastLoop_all (body : List Char) (n m : Nat) (h : atoiFastLoop body n = some m) :
    body.all isDigit = true := by
  induction body generalizing n with
  | nil => rfl
  | cons c cs ih =>
    simp only [atoiFastLoop] at h
    by_cases hc : isDigit c = true
    · simp only [hc, Bool.not_true, Bool.false_eq_true, if_false] at h
      simp [hc, ih _ h]
    · simp [hc] at h

theorem parseUintLoop_all (body : List Char) (n m : Nat) (h : parseUintLoop body n = .ok m) :
    body.all isDigit = true := by
  induction body generalizing n with
  | nil => rfl
  | cons c cs ih =>
    simp only [parseUintLoop] at h
    by_cases hc : isDigit c = true
    · simp only [hc, Bool.not_true, Bool.false_eq_true, if_false] at h
      split at h
      · cases h
      · split at h
        · cases h
        · simp [hc, ih _ h]
    · simp [hc] at h

theorem ParseUint_ok (body : GoString) (un : Nat) (e : Option NumErrKind)
    (h : ParseUint body = (un, e)) (he : e ≠ some .ErrSyntax) :
    body ≠ [] ∧ (body.all isDigit = true ∨ (un = 2 ^ 64 - 1 ∧ e = some .ErrRange)) := by
  unfold ParseUint at h
  by_cases hb : body = []
  · simp [hb] at h
    exact absurd h.2.symm he
  · simp only [hb, if_false] at h
    refine ⟨hb, ?_⟩
    cases hl : parseUintLoop body 0 with
    | ok n => exact Or.inl (parseUintLoop_all body 0 n hl)
    | error k =>
      rw [hl] at h
      cases k with
      | ErrSyntax =>
        simp at h
        exact absurd h.2.symm he
      | ErrRange =>
        simp at h
        exact Or.inr ⟨h.1.symm, h.2.symm⟩


theorem ParseInt_ok (fn s : GoString) (h : (ParseInt fn s).2 = none) :
    (if s.head? = some '+' ∨ s.head? = some '-' then s.tail else s) ≠ [] ∧
    (if s.head? = some '+' ∨ s.head? = some '-' then s.tail else s).all isDigit = true := by
  unfold ParseInt at h
  split at h
  · simp at h
  · simp only at h
    generalize (if s.head? = some '+' ∨ s.head? = some '-' then s.tail else s) = body at h ⊢
    rcases hp : ParseUint body with ⟨un, e⟩
    rw [hp] at h
    by_cases he : e = some .ErrSyntax
    · subst he
      simp at h
    · obtain ⟨hb, hd⟩ := ParseUint_ok body un e hp he
      refine ⟨hb, ?_⟩
      rcases hd with hd | ⟨hun, hee⟩
      · exact hd
      · exfalso
        subst hun
        subst hee
        simp only [intSize] at h
        by_cases hneg : s.head? = some '-'
        · simp [hneg] at h
        · simp [hneg] at h

theorem Atoi_ok_isDecimalInteger (r : GoString) (h : (Atoi r).2 = none) :
    isDecimalInteger r = true := by
  cases r with
  | nil => simp [Atoi, ParseInt] at h
  | cons c cs =>
    by_cases hsign : c = '+' ∨ c = '-'
    · have hs1 : ((c :: cs).head? = some '-' ∨ (c :: cs).head? = some '+') := by
        rcases hsign with h1 | h1 <;> simp [h1]
      have hs2 : ((c :: cs).head? = some '+' ∨ (c :: cs).head? = some '-') := hs1.symm
      simp only [isDecimalInteger, if_pos hsign]
      unfold Atoi at h
      split at h
      · simp only [if_pos hs1, List.tail_cons] at h
        split at h
        · simp at h
        · split at h
          · simp at h
          · rename_i hb _ n hn
            have := atoiFastLoop_all cs 0 n hn
            cases cs with
            | nil => simp at hb
            | cons d ds => simp [this]
      · have := ParseInt_ok _ _ h
        simp only [if_pos hs2, List.tail_cons] at this
        cases cs with
        | nil => exact absurd rfl this.1
        | cons d ds => simp [this.2]
    · have hs1 : ¬ ((c :: cs).head? = some '-' ∨ (c :: cs).head? = some '+') := by
        intro hh
        apply hsign
        rcases hh with h1 | h1
        · right; simpa using h1
        · left; simpa using h1
      have hs2 : ¬ ((c :: cs).head? = some '+' ∨ (c :: cs).head? = some '-') :=
        fun hh => hs1 hh.symm
      simp only [isDecimalInteger, if_neg hsign]
      unfold Atoi at h
      split at h
      · simp only [if_neg hs1] at h
        split at h
        · simp at h
        · split at h
          · simp at h
          · rename_i hb _ n hn
            exact atoiFastLoop_all (c :: cs) 0 n hn
      · have := ParseInt_ok _ _ h
        simp only [if_neg hs2] at this
        exact this.2

theorem FromString_of_Split (f : GoString → Task_Unique_Identifier × error) (s : GoString)
    (pieces : List GoString) (r : GoString) (hs : Split s '_' = pieces ++ [r]) :
    New_Workunit_Unique_Identifier_FromString f s =
      match Atoi r with
      | (_, some err) => some (Workunit_Unique_Identifier.zero, some err)
      | (rank, none) =>
        match f (Join pieces.dropLast "_".toList) with
        | (_, some err) =>
          some (Workunit_Unique_Identifier.zero,
            some (.New ("(New_Workunit_Unique_Identifier_FromString) New_Task_Unique_Identifier_FromString returns: ".toList
              ++ err.Error)))
        | (t, none) => some (New_Workunit_Unique_Identifier t rank, none) := by
  unfold New_Workunit_Unique_Identifier_FromString
  simp only [hs]
  rw [index_length_sub_one]
  cases pieces with
  | nil => simp [Join]
  | cons a rest =>
    have hlen : ((a :: rest ++ [r]).length : Int) - 2 = (rest.length : Int) := by
      simp only [List.length_append, List.length_cons, List.length_nil]
      push_cast
      ring
    have hgt : (a :: rest ++ [r]).length > 1 := by simp
    rw [if_pos hgt, hlen, slice_zero_some _ _ (by omega) (by simp; omega)]
    have htake : List.take (rest.length : Int).toNat (a :: rest ++ [r]) = (a :: rest).dropLast := by
      rw [List.dropLast_eq_take]
      simp only [Int.toNat_ofNat, List.length_cons, Nat.add_sub_cancel]
      rw [List.take_append_of_le_length (by simp)]
    simp only [Option.map_some', htake]

theorem Split_of_isTextAfterLast (sep : Char) (s r : GoString) (h : IsTextAfterLast sep s r) :
    ∃ pieces, Split s sep = pieces ++ [r] := by
  obtain ⟨hr, hs | ⟨p, hs⟩⟩ := h
  · exact ⟨[], by rw [hs, Split_of_not_mem sep r hr]; rfl⟩
  · exact ⟨Split p sep, by rw [hs, Split_append_sep, Split_of_not_mem sep r hr]⟩

/-! ## Workunit identifiers: formatting and parsing -/

/-- C1: parsing is not the inverse of formatting.  The identifiers of the tasks `wf/a` and
`wf/b` of job `j`, both with rank 0, are formatted as `j_j_wf/a_0` and `j_j_wf/b_0`; for both
the parser hands the same text `j_j` to the task parser, so whatever the task parser is, the
round trip fails for at least one of the two well-formed identifiers. -/
theorem FromString_String_not_inverse :
    ¬ ∃ f : GoString → Task_Unique_Identifier × error,
      New_Workunit_Unique_Identifier_FromString f
          (Workunit_Unique_Identifier.String ⟨⟨"j".toList, "wf".toList, "a".toList⟩, 0⟩)
        = some (⟨⟨"j".toList, "wf".toList, "a".toList⟩, 0⟩, none) ∧
      New_Workunit_Unique_Identifier_FromString f
          (Workunit_Unique_Identifier.String ⟨⟨"j".toList, "wf".toList, "b".toList⟩, 0⟩)
        = some (⟨⟨"j".toList, "wf".toList, "b".toList⟩, 0⟩, none) := by
  rintro ⟨f, h1, h2⟩
  have e1 := FromString_of_Split f
    (Workunit_Unique_Identifier.String ⟨⟨"j".toList, "wf".toList, "a".toList⟩, 0⟩)
    ["j".toList, "j".toList, "wf/a".toList] "0".toList (by decide)
  have e2 := FromString_of_Split f
    (Workunit_Unique_Identifier.String ⟨⟨"j".toList, "wf".toList, "b".toList⟩, 0⟩)
    ["j".toList, "j".toList, "wf/b".toList] "0".toList (by decide)
  rw [h1] at e1
  rw [h2] at e2
  have ha : Atoi "0".toList = (0, none) := by decide
  have hj1 : Join (["j".toList, "j".toList, "wf/a".toList] : List GoString).dropLast "_".toList
      = "j_j".toList := by decide
  have hj2 : Join (["j".toList, "j".toList, "wf/b".toList] : List GoString).dropLast "_".toList
      = "j_j".toList := by decide
  rw [ha, hj1] at e1
  rw [ha, hj2] at e2
  rcases hf : f "j_j".toList with ⟨t, e⟩
  rw [hf] at e1 e2
  cases e with
  | some err => simp at e1
  | none =>
    simp only [Option.some.injEq, Prod.mk.injEq, and_true, New_Workunit_Unique_Identifier,
      Workunit_Unique_Identifier.zero] at e1 e2
    have := e1.trans e2.symm
    exact absurd this (by decide)

/-- C2: on `a_1` and on `job_wf/task_7` the parser isolates the rank, but the task parser is
not handed the text before the last `_` (`a`, respectively `job_wf/task`): it is handed the
empty text, respectively `job`.  (`recordingParser` returns the text it is handed in the field
`JobId`.) -/
theorem FromString_drops_last_piece_of_task :
    New_Workunit_Unique_Identifier_FromString recordingParser "a_1".toList
      = some (⟨⟨[], [], []⟩, 1⟩, none) ∧
    New_Workunit_Unique_Identifier_FromString recordingParser "job_wf/task_7".toList
      = some (⟨⟨"job".toList, [], []⟩, 7⟩, none) := by
  constructor <;> decide

/-- C3: the string form of the workunit of rank 0 of task `wf/t` of job `j` is `j_j_wf/t_0`,
the job id followed by `_` and then the task's string form, `_` and the rank; it is not
`j_wf/t_0`, the task's string form followed by `_` and the rank. -/
theorem String_prepends_JobId :
    Workunit_Unique_Identifier.String ⟨⟨"j".toList, "wf".toList, "t".toList⟩, 0⟩
      = "j_j_wf/t_0".toList ∧
    Workunit_Unique_Identifier.String ⟨⟨"j".toList, "wf".toList, "t".toList⟩, 0⟩
      ≠ Task_Unique_Identifier.String ⟨"j".toList, "wf".toList, "t".toList⟩ ++ "_".toList
          ++ FormatInt 0 := by
  constructor <;> decide

/-- C4: when the text after the last `_` of the input (the whole input when it has no `_`) is
not a decimal integer, `New_Workunit_Unique_Identifier_FromString` returns an error (and the
zero identifier), whatever the task parser is. -/
theorem FromString_error_of_rank_not_integer (f : GoString → Task_Unique_Identifier × error)
    (s r : GoString) (h : IsTextAfterLast '_' s r) (hr : isDecimalInteger r = false) :
    ∃ err, New_Workunit_Unique_Identifier_FromString f s
      = some (Workunit_Unique_Identifier.zero, some err) := by
  obtain ⟨pieces, hs⟩ := Split_of_isTextAfterLast '_' s r h
  rw [FromString_of_Split f s pieces r hs]
  rcases ha : Atoi r with ⟨rank, e⟩
  cases e with
  | some err => exact ⟨err, rfl⟩
  | none =>
    have := Atoi_ok_isDecimalInteger r (by rw [ha])
    rw [hr] at this
    cases this

theorem FromString_error_of_rank_not_integer_witness :
    IsTextAfterLast '_' "job_task_x".toList "x".toList ∧
    isDecimalInteger "x".toList = false ∧
    ∃ err, New_Workunit_Unique_Identifier_FromString recordingParser "job_task_x".toList
      = some (Workunit_Unique_Identifier.zero, some err) :=
  ⟨⟨by decide, Or.inr ⟨"job_task".toList, by decide⟩⟩, by decide,
    FromString_error_of_rank_not_integer recordingParser "job_task_x".toList "x".toList
      ⟨by decide, Or.inr ⟨"job_task".toList, by decide⟩⟩ (by decide)⟩


/-! ## The persistence gateway -/

theorem FormatInt_DocumentMaxByte : FormatInt DocumentMaxByte = "16777216".toList := by
  decide

/-- C5: for a `*Job`, `*JobPerf` or `*ClientGroup` whose BSON encoding succeeds with `nbson`,
`dbUpsert` returns the document-too-large error exactly when `len(nbson) ≥ 16777216`, and then
without any action (no session, no write); below the limit it copies a session, issues one
upsert on the collection of the value's type with selector `{id: t.Id}`, closes the session and
returns the driver's answer. -/
theorem dbUpsert_document_size (env : Env) (t : DbEntry) (nbson : List Nat)
    (ht : t.isStored = true) (hm : env.Marshal t = (nbson, none)) :
    ((dbUpsert env t).1
        = some (.New "bson document size is greater than limit of 16777216 bytes".toList)
      ↔ 16777216 ≤ nbson.length) ∧
    (16777216 ≤ nbson.length → (dbUpsert env t).2 = []) ∧
    (nbson.length < 16777216 →
      dbUpsert env t =
        ((env.Upsert env.conf.MONGODB_DATABASE (t.collection env.conf)
            [("id".toList, .string t.Id)] t).map .ext,
         [.SessionCopy,
          .Upsert env.conf.MONGODB_DATABASE (t.collection env.conf)
            [("id".toList, .string t.Id)] t,
          .SessionClose])) := by
  by_cases hn : 16777216 ≤ nbson.length
  · have hbig : decide ((nbson.length : Int) ≥ DocumentMaxByte) = true := by
      simp only [DocumentMaxByte, ge_iff_le, decide_eq_true_eq]
      omega
    have e : dbUpsert env t
        = (some (.New "bson document size is greater than limit of 16777216 bytes".toList), []) := by
      simp only [dbUpsert, hm, hbig, if_true, FormatInt_DocumentMaxByte]
      rfl
    refine ⟨?_, ?_, ?_⟩
    · rw [e]; simp [hn]
    · intro _; rw [e]
    · intro h; omega
  · have hsmall : decide ((nbson.length : Int) ≥ DocumentMaxByte) = false := by
      simp only [DocumentMaxByte, ge_iff_le, decide_eq_false_iff_not]
      omega
    have e : dbUpsert env t =
        ((env.Upsert env.conf.MONGODB_DATABASE (t.collection env.conf)
            [("id".toList, .string t.Id)] t).map .ext,
         [.SessionCopy,
          .Upsert env.conf.MONGODB_DATABASE (t.collection env.conf)
            [("id".toList, .string t.Id)] t,
          .SessionClose]) := by
      cases t with
      | other tag => simp [DbEntry.isStored] at ht
      | Job j => simp only [dbUpsert, hm, hsmall, DbEntry.collection, DbEntry.Id]; rfl
      | JobPerf j => simp only [dbUpsert, hm, hsmall, DbEntry.collection, DbEntry.Id]; rfl
      | ClientGroup j => simp only [dbUpsert, hm, hsmall, DbEntry.collection, DbEntry.Id]; rfl
    refine ⟨?_, ?_, ?_⟩
    · rw [e]
      constructor
      · intro h
        exfalso
        cases hu : env.Upsert env.conf.MONGODB_DATABASE (t.collection env.conf)
            [("id".toList, .string t.Id)] t with
        | none => rw [hu] at h; simp at h
        | some msg => rw [hu] at h; simp at h
      · intro h; exact absurd h hn
    · intro h; exact absurd h hn
    · intro _; exact e

theorem dbUpsert_document_size_witness :
    (DbEntry.Job (Job.withId "j1".toList)).isStored = true ∧
    Env.quiet.Marshal (.Job (Job.withId "j1".toList)) = ([0, 0, 0, 0, 0], none) ∧
    (([0, 0, 0, 0, 0] : List Nat).length < 16777216 →
      dbUpsert Env.quiet (.Job (Job.withId "j1".toList)) =
        ((Env.quiet.Upsert Env.quiet.conf.MONGODB_DATABASE
            ((DbEntry.Job (Job.withId "j1".toList)).collection Env.quiet.conf)
            [("id".toList, .string (DbEntry.Job (Job.withId "j1".toList)).Id)]
            (.Job (Job.withId "j1".toList))).map .ext,
         [.SessionCopy,
          .Upsert Env.quiet.conf.MONGODB_DATABASE
            ((DbEntry.Job (Job.withId "j1".toList)).collection Env.quiet.conf)
            [("id".toList, .string (DbEntry.Job (Job.withId "j1".toList)).Id)]
            (.Job (Job.withId "j1".toList)),
          .SessionClose])) :=
  ⟨rfl, rfl,
    (dbUpsert_document_size Env.quiet (.Job (Job.withId "j1".toList)) [0, 0, 0, 0, 0]
      rfl rfl).2.2⟩

/-- C6: each task-field writer copies a session, issues one update on the jobs collection with
selector `{id: job_id, "tasks.taskid": task_id}` and operation `$set` of the single key
`tasks.$.<field>` to the value, and closes the session (`dbUpdateJobTaskPartition` has the fixed
field `partinfo`); `dbIncrementJobTaskField` does the same with `$inc`. -/
theorem task_field_writers_positional (env : Env) (job_id task_id fieldname : GoString)
    (value : GoValue) (i : Int) (b : Bool) (str : GoString) (tm : Time) (ios : List Nat)
    (partition : Nat) :
    let selector : M := [("id".toList, .string job_id), ("tasks.taskid".toList, .string task_id)]
    let issued (op key : GoString) (v : GoValue) : List Event :=
      [.SessionCopy,
       .Update env.conf.MONGODB_DATABASE env.conf.DB_COLL_JOBS selector [(op, .M [(key, v)])],
       .SessionClose]
    (dbUpdateJobTaskField env job_id task_id fieldname value).2
        = issued "$set".toList ("tasks.$.".toList ++ fieldname) value ∧
    (dbUpdateJobTaskInt env job_id task_id fieldname i).2
        = issued "$set".toList ("tasks.$.".toList ++ fieldname) (.int i) ∧
    (dbUpdateJobTaskBoolean env job_id task_id fieldname b).2
        = issued "$set".toList ("tasks.$.".toList ++ fieldname) (.bool b) ∧
    (dbUpdateJobTaskString env job_id task_id fieldname str).2
        = issued "$set".toList ("tasks.$.".toList ++ fieldname) (.string str) ∧
    (dbUpdateJobTaskTime env job_id task_id fieldname tm).2
        = issued "$set".toList ("tasks.$.".toList ++ fieldname) (.Time tm) ∧
    ( dbUpdateJobTaskIO env job_id task_id fieldname ios).2
        = issued "$set".toList ("tasks.$.".toList ++ fieldname) (.pointers ios) ∧
    (dbUpdateJobTaskPartition env job_id task_id partition).2
        = issued "$set".toList "tasks.$.partinfo".toList (.pointer partition) ∧
    (dbIncrementJobTaskField env job_id task_id fieldname i).2
        = issued "$inc".toList ("tasks.$.".toList ++ fieldname) (.int i) := by
  refine ⟨rfl, rfl, rfl, ?_, rfl, rfl, rfl, rfl⟩
  simp only [dbUpdateJobTaskString]
  split <;> rfl


/-- C7: `dbAdminData` issues one find on the jobs collection whose filter selects a job
document (with state `state` and `info.completedtime` `completedtime`) exactly when the state is
`completed` and the completion time is later than one calendar month before now
(`time.Now().AddDate(0, -1, 0)`), or the state is neither `completed` nor `deleted`; hence it
selects no deleted job and no job completed at or before that instant. -/
theorem dbAdminData_filter (env : Env) (special : GoString) (d : M) (state : GoString)
    (completedtime : Time)
    (hs : lookupPath d ["state".toList] = some (.string state))
    (hc : lookupPath d ["info".toList, "completedtime".toList] = some (.Time completedtime)) :
    ∃ q fields, (dbAdminData env special).2 =
      [.SessionCopy,
       .FindSelectAll env.conf.MONGODB_DATABASE env.conf.DB_COLL_JOBS q fields,
       .SessionClose] ∧
      (mongoMatch q d = true ↔
        (state = "completed".toList ∧ completedtime > env.AddDate env.Now 0 (-1) 0) ∨
        (state ≠ "completed".toList ∧ state ≠ "deleted".toList)) ∧
      (state = "deleted".toList → mongoMatch q d = false) ∧
      (state = "completed".toList → completedtime ≤ env.AddDate env.Now 0 (-1) 0 →
        mongoMatch q d = false) := by
  have hsp1 : Split "state".toList '.' = ["state".toList] := by decide
  have hsp2 : Split "info.completedtime".toList '.' = ["info".toList, "completedtime".toList] := by
    decide
  have hor : ("$or".toList = "$or".toList) := rfl
  have hne : ¬ ("$nin".toList = "$gt".toList) := by decide
  have key : ∀ q : M,
      q = [("$or".toList, .Ms
            [[("state".toList, .string "completed".toList),
              ("info.completedtime".toList,
                .M [("$gt".toList, .Time (env.AddDate env.Now 0 (-1) 0))])],
             [("state".toList,
                .M [("$nin".toList, .strings ["completed".toList, "deleted".toList])])]])] →
      (mongoMatch q d = true ↔
        (state = "completed".toList ∧ completedtime > env.AddDate env.Now 0 (-1) 0) ∨
        (state ≠ "completed".toList ∧ state ≠ "deleted".toList)) := by
    intro q hq
    subst hq
    simp only [mongoMatch, matchFields, List.all_cons, List.all_nil, List.any_cons, List.any_nil,
      hor, if_true, hsp1, hsp2, hs, hc, matchCond, matchOp, Bool.and_true, Bool.or_false]
    rw [if_neg hne]
    simp only [List.contains_cons, List.contains_nil, Bool.or_false, Bool.or_eq_true,
      Bool.and_eq_true, decide_eq_true_eq, Bool.not_eq_true', Bool.or_eq_false_iff,
      beq_eq_false_iff_ne, ne_eq]
  refine ⟨_, _, rfl, key _ rfl, ?_, ?_⟩
  · intro hdel
    have hdc : ¬ ("deleted".toList = "completed".toList) := by decide
    cases hm : mongoMatch _ d with
    | false => rfl
    | true =>
      exfalso
      rcases (key _ rfl).mp hm with ⟨h1, _⟩ | ⟨_, h2⟩
      · exact hdc (hdel ▸ h1)
      · exact h2 hdel
  · intro hcomp hold
    cases hm : mongoMatch _ d with
    | false => rfl
    | true =>
      exfalso
      rcases (key _ rfl).mp hm with ⟨_, h1⟩ | ⟨h2, _⟩
      · exact absurd h1 (Int.not_lt.mpr hold)
      · exact h2 hcomp

theorem dbAdminData_filter_witness :
    lookupPath completedJobDoc ["state".toList] = some (.string "completed".toList) ∧
    lookupPath completedJobDoc ["info".toList, "completedtime".toList] = some (.Time 5) ∧
    ∃ q fields, (dbAdminData Env.quiet "tasks.cmd".toList).2 =
      [.SessionCopy,
       .FindSelectAll Env.quiet.conf.MONGODB_DATABASE Env.quiet.conf.DB_COLL_JOBS q fields,
       .SessionClose] ∧
      (mongoMatch q completedJobDoc = true ↔
        ("completed".toList = "completed".toList ∧ 5 > Env.quiet.AddDate Env.quiet.Now 0 (-1) 0) ∨
        ("completed".toList ≠ "completed".toList ∧ "completed".toList ≠ "deleted".toList)) ∧
      ("completed".toList = "deleted".toList → mongoMatch q completedJobDoc = false) ∧
      ("completed".toList = "completed".toList → 5 ≤ Env.quiet.AddDate Env.quiet.Now 0 (-1) 0 →
        mongoMatch q completedJobDoc = false) :=
  ⟨rfl, rfl,
    dbAdminData_filter Env.quiet "tasks.cmd".toList completedJobDoc "completed".toList 5 rfl rfl⟩

theorem LoadJob_job_of_no_error (env : Env) (id : GoString)
    (h : (LoadJob env id).1.2 = none) : (LoadJob env id).1.1 ≠ none := by
  unfold LoadJob at h ⊢
  simp only at h ⊢
  split
  · rename_i heq
    rw [heq] at h
    simp at h
  · split
    · simp
    · split <;> simp

/-- C8: `LoadJob` can return a job together with an error.  When the document is found but
`job.Init()` fails, the code sets `err` and returns without resetting `job` (as it does on the
failure of `c.Find`): both results are non-nil. -/
theorem LoadJob_returns_job_and_error :
    (LoadJob Env.initFails "j1".toList).1 =
      (some (Job.withId []),
       some (.New "(LoadJob) job.Init failed: task list is broken".toList)) ∧
    (LoadJob Env.initFails "j1".toList).1.1 ≠ none ∧
    (LoadJob Env.initFails "j1".toList).1.2 ≠ none := by
  refine ⟨rfl, ?_, ?_⟩
  · exact fun h => Option.noConfusion h
  · exact fun h => Option.noConfusion h

/-! ## The job controller -/

/-- C9: when `ADMIN_AUTH` is on and `AdminAuthenticated` answers `false`, each of the handlers
`Create`, `Read`, `ReadMany`, `UpdateMany`, `Update`, `Delete` and `DeleteMany` does nothing
but (for the first five) log the request and call `AdminAuthenticated`: it calls no operation
of the queue manager or of the persistence layer and writes no response of its own. -/
theorem handlers_stop_when_unauthenticated (w : World) (id : GoString)
    (hauth : w.env.conf.ADMIN_AUTH = true) (hno : w.AdminAuthenticated = false) :
    (Create w = [.LogRequest, .AdminAuthenticated] ∧
     Read w id = [.LogRequest, .AdminAuthenticated] ∧
     ReadMany w = [.LogRequest, .AdminAuthenticated] ∧
     UpdateMany w = [.LogRequest, .AdminAuthenticated] ∧
     Update w id = [.LogRequest, .AdminAuthenticated] ∧
     Delete w id = [.AdminAuthenticated] ∧
     DeleteMany w = [.AdminAuthenticated]) ∧
    ∀ t ∈ [Create w, Read w id, ReadMany w, UpdateMany w, Update w id, Delete w id,
        DeleteMany w],
      ∀ e ∈ t, e.isOperation = false ∧ e.isResponse = false := by
  have h : Create w = [.LogRequest, .AdminAuthenticated] ∧
     Read w id = [.LogRequest, .AdminAuthenticated] ∧
     ReadMany w = [.LogRequest, .AdminAuthenticated] ∧
     UpdateMany w = [.LogRequest, .AdminAuthenticated] ∧
     Update w id = [.LogRequest, .AdminAuthenticated] ∧
     Delete w id = [.AdminAuthenticated] ∧
     DeleteMany w = [.AdminAuthenticated] := by
    refine ⟨?_, ?_, ?_, ?_, ?_, ?_, ?_⟩
    · simp [Create, hauth, hno]
    · simp [Read, hauth, hno]
    · simp [ReadMany, hauth, hno]
    · simp [UpdateMany, hauth, hno]
    · simp [Update, hauth, hno]
    · simp [Delete, hauth, hno]
    · simp [DeleteMany, hauth, hno]
  refine ⟨h, ?_⟩
  obtain ⟨h1, h2, h3, h4, h5, h6, h7⟩ := h
  intro t ht e he
  rw [h1, h2, h3, h4, h5, h6, h7] at ht
  simp only [List.mem_cons, List.mem_singleton, List.mem_nil_iff, or_false] at ht
  rcases ht with rfl | rfl | rfl | rfl | rfl | rfl | rfl <;>
    simp only [List.mem_cons, List.mem_singleton, List.mem_nil_iff, or_false] at he <;>
    rcases he with rfl | rfl <;> exact ⟨rfl, rfl⟩

theorem handlers_stop_when_unauthenticated_witness :
    World.quiet.env.conf.ADMIN_AUTH = true ∧ World.quiet.AdminAuthenticated = false ∧
    ∀ t ∈ [Create World.quiet, Read World.quiet "j1".toList, ReadMany World.quiet,
        UpdateMany World.quiet, Update World.quiet "j1".toList, Delete World.quiet "j1".toList,
        DeleteMany World.quiet],
      ∀ e ∈ t, e.isOperation = false ∧ e.isResponse = false :=
  ⟨rfl, rfl, (handlers_stop_when_unauthenticated World.quiet "j1".toList rfl rfl).2⟩

/-- C10: an error path of `Update` is not terminal.  For an authenticated `PUT /job/j1?resume`
on which `QMgr.ResumeSuspendedJob` fails, the handler writes the error response and then, for
want of a `return`, the success response `job resumed: j1`: two responses. -/
theorem Update_error_then_success :
    Update World.resumeFails "j1".toList =
      [.LogRequest, .AdminAuthenticated, .ResumeSuspendedJob "j1".toList,
       .RespondWithErrorMessage "fail to resume job: j1 job is not suspended".toList 400,
       .RespondWithData (.text "job resumed: j1".toList)] ∧
    ((Update World.resumeFails "j1".toList).filter Event.isResponse).length = 2 := by
  constructor <;> rfl


/-- C11: an empty `recompute` stage does not stop `Update`.  For an authenticated
`PUT /job/j1?recompute=` the handler writes the bad-request response and then, for want of a
`return`, calls `QMgr.RecomputeJob("j1", "")` and writes `job recompute started: j1`. -/
theorem Update_recompute_empty_stage :
    Update World.recomputeEmpty "j1".toList =
      [.LogRequest, .AdminAuthenticated,
       .RespondWithErrorMessage "lacking stage id from which the recompute starts".toList 400,
       .RecomputeJob "j1".toList [],
       .RespondWithData (.text "job recompute started: j1".toList)] := by
  rfl

/-- C12: a missing or non-integer `priority` does not stop `Update`.  For an authenticated
`PUT /job/j1?priority=high` the handler writes the 400 response and then calls
`QMgr.UpdatePriority("j1", 0)` and writes the success response; for `priority=` (empty) it
writes two 400 responses and then does the same. -/
theorem Update_priority_invalid :
    Update (World.priority "high".toList) "j1".toList =
      [.LogRequest, .AdminAuthenticated,
       .RespondWithErrorMessage "need int for priority value (0-3)".toList 400,
       .UpdatePriority "j1".toList 0,
       .RespondWithData (.text "job priority updated: j1 to high".toList)] ∧
    Update (World.priority []) "j1".toList =
      [.LogRequest, .AdminAuthenticated,
       .RespondWithErrorMessage "lacking priority value (0-3)".toList 400,
       .RespondWithErrorMessage "need int for priority value (0-3)".toList 400,
       .UpdatePriority "j1".toList 0,
       .RespondWithData (.text "job priority updated: j1 to ".toList)] := by
  constructor <;> rfl

theorem UpdateMany_DeleteMany_unrecognised (w : World) (hauth : w.passesAuth = true) :
    (w.Has "resumeall".toList = false →
      UpdateMany w = w.preamble ++ [.RespondWithError 501]) ∧
    (w.Has "suspend".toList = false → w.Has "zombie".toList = false →
      DeleteMany w =
        (if w.env.conf.ADMIN_AUTH then [Event.AdminAuthenticated] else []) ++
          [.LogRequest, .RespondWithError 501]) := by
  simp only [World.passesAuth, Bool.not_eq_true'] at hauth
  constructor
  · intro h
    simp only [UpdateMany, World.preamble, hauth, h, StatusNotImplemented, Bool.false_eq_true,
      if_false]
  · intro h1 h2
    simp only [DeleteMany, hauth, h1, h2, StatusNotImplemented, Bool.false_eq_true, if_false,
      List.cons_append, List.nil_append]

/-- C15: `Update` does not answer 501 to a request without a recognised selector.  For an
authenticated `PUT /job/j1` with no selector the handler calls no operation of the queue
manager, but it answers with the data response `requested job operation not supported`
(status 200), where `UpdateMany` and `DeleteMany` answer 501. -/
theorem Update_unrecognised_not_501 :
    Update World.authenticated "j1".toList =
      [.LogRequest, .AdminAuthenticated,
       .RespondWithData (.text "requested job operation not supported".toList)] ∧
    (Update World.authenticated "j1".toList).map Event.status = [none, none, some 200] ∧
    UpdateMany World.authenticated = [.LogRequest, .AdminAuthenticated, .RespondWithError 501] ∧
    DeleteMany World.authenticated = [.AdminAuthenticated, .LogRequest, .RespondWithError 501] := by
  refine ⟨rfl, rfl, rfl, rfl⟩


/-! ## Indexes, the generic find, and the CWL parser -/

theorem HasInfoField_loop_iff (a : GoString) (l : List GoString) :
    HasInfoField.loop a l = true ↔ a ∈ l := by
  induction l with
  | nil => simp [HasInfoField.loop]
  | cons b rest ih =>
    simp only [HasInfoField.loop, List.mem_cons]
    by_cases hb : b = a
    · simp [hb]
    · have hab : ¬ a = b := fun e => hb e.symm
      simp [hb, hab, ih]

/-- C17: `InitJobDB` copies a session, ensures on the jobs collection exactly the indexes
`acl.owner`, `acl.read`, `acl.write`, `acl.delete`, `id`, `state`, `expiration`, `updatetime`
and `info.<f>` for each `f` of `JobInfoIndexes` (then the index `id` of the perf collection) and
closes the session; of the indexes on the jobs collection only `id` is unique; and an index
`info.<f>` is among them exactly when `HasInfoField f` holds. -/
theorem InitJobDB_indexes (env : Env) :
    InitJobDB env =
      [.SessionCopy] ++
      jobsIndexes.map (Event.EnsureIndex env.conf.MONGODB_DATABASE env.conf.DB_COLL_JOBS) ++
      [.EnsureIndex env.conf.MONGODB_DATABASE env.conf.DB_COLL_PERF ⟨["id".toList], true, false⟩,
       .SessionClose] ∧
    (∀ ix ∈ jobsIndexes, (ix.Unique = true ↔ ix.Key = ["id".toList])) ∧
    (∀ f : GoString,
      (∃ ix ∈ jobsIndexes, ix.Key = ["info.".toList ++ f]) ↔ HasInfoField f = true) := by
  refine ⟨?_, by decide, ?_⟩
  · simp only [InitJobDB, jobsIndexes, List.map_append, List.map_map, List.map_cons,
      List.map_nil, List.cons_append, List.nil_append, List.append_assoc]
    rfl
  · intro f
    rw [HasInfoField, HasInfoField_loop_iff]
    constructor
    · rintro ⟨ix, hix, hkey⟩
      simp only [jobsIndexes, List.mem_append, List.mem_map] at hix
      rcases hix with hfix | ⟨g, hg, rfl⟩
      · exfalso
        simp only [List.mem_cons, List.mem_singleton, List.mem_nil_iff, or_false] at hfix
        rcases hfix with rfl | rfl | rfl | rfl | rfl | rfl | rfl | rfl <;>
          simp [String.toList] at hkey
      · simp only [List.cons.injEq, and_true] at hkey
        have : g = f := List.append_cancel_left hkey
        exact this ▸ hg
    · intro hf
      refine ⟨⟨["info.".toList ++ f], false, true⟩, ?_, rfl⟩
      simp only [jobsIndexes, List.mem_append, List.mem_map]
      exact Or.inr ⟨f, hf, rfl⟩

theorem Unmarshal_err_nil {V : Type}
    (yamlUnmarshal jsonUnmarshal : GoString → V → V × Option GoString) (data : GoString) (v : V) :
    (Unmarshal yamlUnmarshal jsonUnmarshal data v).1 = none := by
  rfl

/-- C18: `Unmarshal` returns no error when both parsers fail.  On the data `a: b: c`, which
the YAML parser and then the JSON parser reject, it logs the two failures and returns `nil`:
the test `err != nil` looks at the result `err`, to which nothing was assigned. -/
theorem Unmarshal_both_fail_returns_nil :
    Unmarshal CwlEnv.noParse.yamlUnmarshal CwlEnv.noParse.jsonUnmarshal "a: b: c".toList
        (⟨[], []⟩ : CWL_document_generic) =
      (none, ⟨[], []⟩,
       [.yamlUnmarshal "a: b: c".toList,
        .loggerDebug 1
          ("CWL YAML unmarshal error, (try json...) : ".toList
            ++ "yaml: mapping values are not allowed in this context".toList),
        .jsonUnmarshal "a: b: c".toList,
        .loggerDebug 1
          ("CWL JSON unmarshal error: ".toList
            ++ "invalid character 'a' looking for beginning of value".toList)]) := by
  rfl

/-- C19: a graph element with a string `class` but without `id` makes `Parse_cwl_document`
fault: the type assertion `elem["id"].(string)` has no `ok` result, and the test `!ok` that
follows looks at the `ok` of the `class` assertion.  An element without `class` is rejected
with the error `object has no member class`. -/
theorem Parse_cwl_document_missing_id_faults :
    (Parse_cwl_document (CwlEnv.reads [[("class".toList, .string "File".toList)]]) []
        "$graph:\n- class: File\n".toList).1 = none ∧
    (Parse_cwl_document (CwlEnv.reads [[("id".toList, .string "main".toList)]]) []
        "$graph:\n- id: main\n".toList).1 =
      some (some (.New "object has no member class".toList), []) := by
  constructor <;> rfl

theorem dbFind_limit_without_offset (env : Env) (q : M) (results : Option (List Job))
    (options : List (GoString × Int)) (limit : Int)
    (hl : lookupOption options "limit".toList = some limit)
    (ho : lookupOption options "offset".toList = none) :
    (dbFind env q results options).1.1 = 0 ∧ (dbFind env q results options).1.2 ≠ none ∧
    (dbFind env q results options).2.2 =
      [.SessionCopy, .Count env.conf.MONGODB_DATABASE env.conf.DB_COLL_JOBS q, .SessionClose] := by
  unfold dbFind
  simp only [hl, ho]
  split <;> simp

/-- C20: with `offset` alone in `options`, `dbFind` returns no error: on
`options = {"offset": 5}` it counts (3 documents), runs the result query without limit or skip,
initialises the results and returns `(3, nil)`.  Only `limit` without `offset` is rejected. -/
theorem dbFind_offset_without_limit :
    dbFind Env.quiet [] (some []) [("offset".toList, 5)] =
      ((3, none), some [],
       [.SessionCopy, .Count "AWEDB".toList "Jobs".toList [],
        .All "AWEDB".toList "Jobs".toList [] none, .JobsInit [], .SessionClose]) := by
  rfl


/-! ## The listings of `ReadMany` -/

theorem filterLoop_eq (member : GoString → Bool) (offset limit : Int) (J : List Job)
    (skip count : Int) (hs : skip ≤ offset) (hc : count < limit) :
    filterLoop member offset limit J skip count =
      (((J.filter (fun job => member job.Id)).map markRegistered).drop
        (offset - skip).toNat).take (limit - count).toNat := by
  induction J generalizing skip count with
  | nil => simp [filterLoop]
  | cons job rest ih =>
    by_cases hm : member job.Id = true
    · by_cases hsk : skip < offset
      · have e : (offset - skip).toNat = (offset - (skip + 1)).toNat + 1 := by omega
        simp only [filterLoop, hm, if_true, hsk, List.filter_cons_of_pos, List.map_cons, e,
          List.drop_succ_cons]
        exact ih (skip + 1) count (by omega) hc
      · have e0 : (offset - skip).toNat = 0 := by omega
        by_cases hl : count + 1 = limit
        · have e1 : (limit - count).toNat = 1 := by omega
          simp [filterLoop, hm, hsk, hl, e0, e1, markRegistered]
        · have e1 : (limit - count).toNat = (limit - (count + 1)).toNat + 1 := by omega
          have := ih skip (count + 1) hs (by omega)
          rw [e0] at this
          simp only [filterLoop, hm, if_true, hsk, if_false, hl, List.filter_cons_of_pos,
            List.map_cons, e0, List.drop_zero, e1, List.take_succ_cons]
          rw [this]
          simp [markRegistered]
    · have hm2 : member job.Id = false := by simpa using hm
      simp only [filterLoop, hm2, Bool.false_eq_true, if_false]
      rw [ih skip count hs hc]
      simp [hm2]


theorem pageOf_spec (A : List GoString) (offset limit : Int) (J : List Job) :
    (pageOf A offset limit J).length ≤ limit.toNat ∧
    ∀ job ∈ pageOf A offset limit J, job.Registered = true ∧ A.contains job.Id = true := by
  constructor
  · simp only [pageOf, List.length_take]
    exact Nat.min_le_left _ _
  · intro job hjob
    have h1 := List.mem_of_mem_drop (List.mem_of_mem_take hjob)
    simp only [List.mem_map, List.mem_filter] at h1
    obtain ⟨j0, ⟨_, hA⟩, rfl⟩ := h1
    exact ⟨rfl, hA⟩

/-- C16: in the `active` listing of `ReadMany` (and, when `active` is absent, in the `suspend`
listing), with the fetched jobs `J`, the ids `A` of the active (suspended) jobs, `offset ≥ 0`
and `limit ≥ 1`, the handler fetches the jobs, asks the queue manager for `A`, and responds
with the page `take limit (drop offset (the jobs of J whose id is in A))`, each marked
registered, and with `|A|` as the total; the page has at most `limit` jobs. -/
theorem ReadMany_active_suspend_page (w : World) (q : M) (J : List Job)
    (hauth : w.passesAuth = true) (hq : ReadMany.q w = some q)
    (hJ : w.GetAll q (ReadMany.order w) (ReadMany.direction w) = (J, none))
    (hoff : 0 ≤ ReadMany.offset w) (hlim : 1 ≤ ReadMany.limit w) :
    (w.Has "active".toList = true →
      ReadMany w = w.preamble ++
        [.GetAll q (ReadMany.order w) (ReadMany.direction w), .GetActiveJobs,
         .RespondWithPaginatedData
            (pageOf w.GetActiveJobs (ReadMany.offset w) (ReadMany.limit w) J)
            (ReadMany.limit w) (ReadMany.offset w) w.GetActiveJobs.length]) ∧
    (w.Has "active".toList = false → w.Has "suspend".toList = true →
      ReadMany w = w.preamble ++
        [.GetAll q (ReadMany.order w) (ReadMany.direction w), .GetSuspendJobs,
         .RespondWithPaginatedData
            (pageOf w.GetSuspendJobs (ReadMany.offset w) (ReadMany.limit w) J)
            (ReadMany.limit w) (ReadMany.offset w) w.GetSuspendJobs.length]) ∧
    (∀ A : List GoString,
      (pageOf A (ReadMany.offset w) (ReadMany.limit w) J).length ≤ (ReadMany.limit w).toNat ∧
      ∀ job ∈ pageOf A (ReadMany.offset w) (ReadMany.limit w) J,
        job.Registered = true ∧ A.contains job.Id = true) := by
  simp only [World.passesAuth, Bool.not_eq_true'] at hauth
  have hpage : ∀ A : List GoString,
      filterLoop (fun jid => A.contains jid) (ReadMany.offset w) (ReadMany.limit w) J 0 0
        = pageOf A (ReadMany.offset w) (ReadMany.limit w) J := by
    intro A
    rw [filterLoop_eq _ _ _ _ 0 0 hoff (by omega)]
    simp [pageOf]
  refine ⟨?_, ?_, fun A => pageOf_spec A _ _ J⟩
  · intro hact
    simp only [ReadMany.q, hact, if_true] at hq
    simp only [ReadMany.order, ReadMany.direction] at hJ
    simp only [ReadMany.offset, ReadMany.limit] at hpage
    simp only [ReadMany, World.preamble, hauth, Bool.false_eq_true, if_false, hq, hact, if_true,
      hJ, hpage, ReadMany.order, ReadMany.direction, ReadMany.offset, ReadMany.limit,
      List.append_assoc]
    rfl
  · intro hact hsus
    simp only [ReadMany.q, hact, hsus, Bool.false_eq_true, if_false, if_true] at hq
    simp only [ReadMany.order, ReadMany.direction] at hJ
    simp only [ReadMany.offset, ReadMany.limit] at hpage
    simp only [ReadMany, World.preamble, hauth, Bool.false_eq_true, if_false, hq, hact, hsus,
      if_true, hJ, hpage, ReadMany.order, ReadMany.direction, ReadMany.offset, ReadMany.limit,
      List.append_assoc]
    rfl


theorem ReadMany_active_suspend_page_witness :
    World.activeListing.passesAuth = true ∧
    ReadMany.q World.activeListing
      = some [("state".toList, .M [("$in".toList, .strings World.activeListing.JOB_STATS_ACTIVE)])] ∧
    World.activeListing.GetAll
        [("state".toList, .M [("$in".toList, .strings World.activeListing.JOB_STATS_ACTIVE)])]
        (ReadMany.order World.activeListing) (ReadMany.direction World.activeListing)
      = (threeJobs, none) ∧
    0 ≤ ReadMany.offset World.activeListing ∧ 1 ≤ ReadMany.limit World.activeListing ∧
    (World.activeListing.Has "active".toList = true →
      ReadMany World.activeListing = World.activeListing.preamble ++
        [.GetAll [("state".toList, .M [("$in".toList, .strings World.activeListing.JOB_STATS_ACTIVE)])]
            (ReadMany.order World.activeListing) (ReadMany.direction World.activeListing),
         .GetActiveJobs,
         .RespondWithPaginatedData
            (pageOf World.activeListing.GetActiveJobs (ReadMany.offset World.activeListing)
              (ReadMany.limit World.activeListing) threeJobs)
            (ReadMany.limit World.activeListing) (ReadMany.offset World.activeListing)
            World.activeListing.GetActiveJobs.length]) :=
  ⟨rfl, rfl, rfl, by decide, by decide,
    (ReadMany_active_suspend_page World.activeListing _ threeJobs rfl rfl rfl
      (by decide) (by decide)).1⟩

theorem ReadMany_active_example :
    ReadMany World.activeListing =
      [.LogRequest, .AdminAuthenticated,
       .GetAll [("state".toList, .M [("$in".toList, .strings ["queuing".toList, "in-progress".toList])])]
          "updatetime".toList "desc".toList,
       .GetActiveJobs,
       .RespondWithPaginatedData [markRegistered (Job.withId "c".toList)] 1 1 2] := by
  rfl


/-! ## The responses to a failed load -/

theorem LoadJob_error_text (env : Env) (id : GoString) (e : GoError)
    (h : (LoadJob env id).1.2 = some e) : "(LoadJob) ".toList <+: e.Error := by
  unfold LoadJob at h
  simp only at h
  split at h
  · simp only [Option.some.injEq] at h
    subst h
    exact ⟨_, rfl⟩
  · split at h
    · simp only [Option.some.injEq] at h
      subst h
      exact ⟨_, rfl⟩
    · split at h <;> simp at h

theorem LoadJob_events_not_response (env : Env) (id : GoString) :
    ∀ ev ∈ (LoadJob env id).2, ev.status = none := by
  unfold LoadJob
  simp only
  split
  · intro ev hev
    simp only [List.mem_cons, List.mem_singleton, List.mem_nil_iff, or_false] at hev
    rcases hev with rfl | rfl | rfl <;> rfl
  · split
    · intro ev hev
      simp only [List.mem_cons, List.mem_singleton, List.mem_nil_iff, or_false] at hev
      rcases hev with rfl | rfl | rfl | rfl <;> rfl
    · split
      · intro ev hev
        simp only [List.mem_cons, List.mem_singleton, List.mem_nil_iff, or_false] at hev
        rcases hev with rfl | rfl | rfl | rfl | rfl <;> rfl
      · intro ev hev
        simp only [List.mem_cons, List.mem_singleton, List.mem_nil_iff, or_false] at hev
        rcases hev with rfl | rfl | rfl | rfl <;> rfl

theorem LoadJobPerf_events (env : Env) (id : GoString) :
    (LoadJobPerf env id).2 =
      [.SessionCopy,
       .FindOne env.conf.MONGODB_DATABASE env.conf.DB_COLL_PERF [("id".toList, .string id)],
       .SessionClose] := by
  unfold LoadJobPerf
  simp only
  split <;> rfl

theorem LoadJobPerf_error (env : Env) (id : GoString) (e : GoError)
    (h : (LoadJobPerf env id).1.2 = some e) :
    (LoadJobPerf env id).1.1 = none ∧
    ∃ msg, e = .ext msg ∧
      (env.OneJobPerf env.conf.MONGODB_DATABASE env.conf.DB_COLL_PERF
        [("id".toList, .string id)] ⟨[]⟩).2 = some msg := by
  unfold LoadJobPerf at h ⊢
  simp only at h ⊢
  split at h
  · simp at h
  · rename_i heq
    simp only [Option.some.injEq] at h
    simp only [heq]
    exact ⟨trivial, _, h.symm, rfl⟩


theorem Read_unfold (w : World) (id : GoString) (hauth : w.passesAuth = true) :
    Read w id = w.preamble ++
      (if w.Has "perf".toList then
        (LoadJobPerf w.env id).2 ++
        (match (LoadJobPerf w.env id).1 with
         | (_, some err) =>
           if err.Error = w.MongoDocNotFound then [.RespondWithNotFound]
           else
             [.loggerError ("Err@LoadJobPerf: ".toList ++ id ++ ":".toList ++ err.Error),
              .RespondWithErrorMessage ("job perf stats not found:".toList ++ id) 400]
         | (perf, none) => [.RespondWithData (.perf perf)])
       else
        (LoadJob w.env id).2 ++
        (match (LoadJob w.env id).1 with
         | (_, some err) =>
           if err.Error = w.MongoDocNotFound then [.RespondWithNotFound]
           else [.RespondWithErrorMessage ("job not found:".toList ++ id) 400]
         | (none, none) => [.IsJobRegistered id, .panic]
         | (some job, none) =>
           [Event.IsJobRegistered id] ++
           (if w.Has "export".toList then
              if w.Value "export".toList = [] then
                [.RespondWithErrorMessage
                   "lacking stage id from which the recompute starts".toList 400,
                 .RespondWithData (.job { job with Registered := w.IsJobRegistered id })]
              else if w.Value "export".toList = "taverna".toList then
                [Event.ExportWorkflowRun { job with Registered := w.IsJobRegistered id }] ++
                (match w.ExportWorkflowRun { job with Registered := w.IsJobRegistered id } with
                 | (wfrun, some _) =>
                   [.RespondWithErrorMessage
                      ("failed to export job to taverna workflowrun:".toList ++ id) 400,
                    .RespondWithData (.wfrun wfrun)]
                 | (wfrun, none) => [.RespondWithData (.wfrun wfrun)])
              else [.RespondWithData (.job { job with Registered := w.IsJobRegistered id })]
            else [.RespondWithData (.job { job with Registered := w.IsJobRegistered id })]))) := by
  simp only [World.passesAuth, Bool.not_eq_true'] at hauth
  have hreg : ∀ job : Job,
      (if w.IsJobRegistered id = true then { job with Registered := true }
        else { job with Registered := false }) = { job with Registered := w.IsJobRegistered id } := by
    intro job
    cases w.IsJobRegistered id <;> rfl
  simp only [Read, World.preamble, hauth, Bool.false_eq_true, if_false, StatusBadRequest, hreg,
    List.append_assoc]


theorem any_isNotFound_of_status_none (l : List Event) (h : ∀ ev ∈ l, ev.status = none) :
    l.any Event.isNotFound = false := by
  rw [List.any_eq_false]
  intro ev hev hnf
  have := h ev hev
  cases ev <;> simp [Event.isNotFound, Event.status] at hnf this

theorem preamble_status (w : World) : ∀ ev ∈ w.preamble, ev.status = none := by
  intro ev hev
  simp only [World.preamble] at hev
  split at hev
  · simp only [List.cons_append, List.nil_append, List.mem_cons, List.mem_singleton,
      List.mem_nil_iff, or_false] at hev
    rcases hev with rfl | rfl <;> rfl
  · simp only [List.append_nil, List.mem_singleton] at hev
    subst hev
    rfl

theorem Read_job_loaded_no_404 (w : World) (id : GoString) (hauth : w.passesAuth = true)
    (hperf : w.Has "perf".toList = false) (hok : (LoadJob w.env id).1.2 = none) :
    (Read w id).any Event.isNotFound = false := by
  rw [Read_unfold w id hauth]
  simp only [hperf, Bool.false_eq_true, if_false, List.any_append,
    any_isNotFound_of_status_none _ (preamble_status w),
    any_isNotFound_of_status_none _ (LoadJob_events_not_response w.env id), Bool.false_or]
  rcases hres : (LoadJob w.env id).1 with ⟨job, err⟩
  rw [hres] at hok
  simp only at hok
  subst hok
  cases job with
  | none => rfl
  | some job =>
    simp only [List.any_append, List.any_cons, List.any_nil, Event.isNotFound, Bool.false_or]
    split
    · split
      · rfl
      · split
        · split <;> rfl
        · rfl
    · rfl


theorem LoadJob_error_ne (w : World) (id : GoString) (e : GoError)
    (hnf : ¬ ("(LoadJob) ".toList <+: w.MongoDocNotFound))
    (h : (LoadJob w.env id).1.2 = some e) : e.Error ≠ w.MongoDocNotFound := by
  intro heq
  exact hnf (heq ▸ LoadJob_error_text w.env id e h)

theorem Update_no_404 (w : World) (id : GoString)
    (hnf : ¬ ("(LoadJob) ".toList <+: w.MongoDocNotFound)) :
    (Update w id).any Event.isNotFound = false := by
  have hl := any_isNotFound_of_status_none _ (LoadJob_events_not_response w.env id)
  by_cases hauth : (w.env.conf.ADMIN_AUTH && (w.AdminAuthenticated == false)) = true
  · simp only [Update, hauth, if_true, List.any_append, List.any_cons, List.any_nil,
      Event.isNotFound, Bool.or_false, List.append_nil]
    split <;> rfl
  have hpre : ((if w.env.conf.ADMIN_AUTH then [Event.AdminAuthenticated] else [])).any
      Event.isNotFound = false := by
    split <;> rfl
  simp only [Bool.not_eq_true] at hauth
  by_cases h1 : w.Has "resume".toList = true
  · simp only [Update, hauth, h1, if_true, Bool.false_eq_true, if_false, List.any_append, hpre,
      List.any_cons, List.any_nil, Event.isNotFound, Bool.or_false, Bool.false_or]
    split <;> rfl
  by_cases h2 : w.Has "suspend".toList = true
  · simp only [Update, hauth, h1, h2, if_true, Bool.false_eq_true, if_false, List.any_append,
      hpre, List.any_cons, List.any_nil, Event.isNotFound, Bool.or_false, Bool.false_or]
    split <;> rfl
  by_cases h3 : (w.Has "resubmit".toList || w.Has "reregister".toList) = true
  · simp only [Update, hauth, h1, h2, h3, if_true, Bool.false_eq_true, if_false,
      List.any_append, hpre, List.any_cons, List.any_nil, Event.isNotFound, Bool.or_false,
      Bool.false_or]
    split <;> rfl
  by_cases h4 : w.Has "recompute".toList = true
  · simp only [Update, hauth, h1, h2, h3, h4, if_true, Bool.false_eq_true, if_false,
      List.any_append, hpre, List.any_cons, List.any_nil, Event.isNotFound, Bool.or_false,
      Bool.false_or]
    split <;> split <;> rfl
  by_cases h5 : w.Has "clientgroup".toList = true
  · simp only [Update, hauth, h1, h2, h3, h4, h5, if_true, Bool.false_eq_true, if_false,
      List.any_append, hpre, List.any_cons, List.any_nil, Event.isNotFound, Bool.or_false,
      Bool.false_or]
    split <;> split <;> rfl
  by_cases h6 : w.Has "priority".toList = true
  · simp only [Update, hauth, h1, h2, h3, h4, h5, h6, if_true, Bool.false_eq_true, if_false,
      List.any_append, hpre, List.any_cons, List.any_nil, Event.isNotFound, Bool.or_false,
      Bool.false_or]
    split <;> split <;> split <;> rfl
  by_cases h7 : w.Has "settoken".toList = true
  · simp only [Update, hauth, h1, h2, h3, h4, h5, h6, h7, if_true, Bool.false_eq_true, if_false,
      List.any_append, hpre, List.any_cons, List.any_nil, Event.isNotFound, Bool.or_false,
      Bool.false_or]
    split
    · rfl
    · simp only [List.any_append, hl, Bool.false_or]
      rcases hres : (LoadJob w.env id).1 with ⟨job, err⟩
      cases err with
      | some e =>
        have hne := LoadJob_error_ne w id e hnf (by rw [hres])
        simp only [hne, if_false, List.any_cons, List.any_nil, Event.isNotFound, Bool.or_false]
      | none =>
        cases job <;> rfl
  · simp only [Update, hauth, h1, h2, h3, h4, h5, h6, h7, if_true, Bool.false_eq_true, if_false,
      List.any_append, hpre, List.any_cons, List.any_nil, Event.isNotFound, Bool.or_false,
      Bool.false_or]


theorem any_isNotFound_IsJobRegistered (jobs : List Job) :
    (jobs.map (fun job => Event.IsJobRegistered job.Id)).any Event.isNotFound = false := by
  induction jobs with
  | nil => rfl
  | cons job rest ih => simp [Event.isNotFound]

theorem other_handlers_no_404 (w : World) (id : GoString) :
    (Create w).any Event.isNotFound = false ∧
    (ReadMany w).any Event.isNotFound = false ∧
    (UpdateMany w).any Event.isNotFound = false ∧
    (Delete w id).any Event.isNotFound = false ∧
    (DeleteMany w).any Event.isNotFound = false := by
  have hpre : ((if w.env.conf.ADMIN_AUTH then [Event.AdminAuthenticated] else [])).any
      Event.isNotFound = false := by
    split <;> rfl
  have hreg := any_isNotFound_IsJobRegistered
  refine ⟨?_, ?_, ?_, ?_, ?_⟩
  · simp only [Create, List.any_append, hpre, List.any_cons, List.any_nil, Event.isNotFound,
      Bool.or_false, Bool.false_or]
    split
    · rfl
    · split
      · split <;> rfl
      · split
        · rfl
        · simp only [List.any_append, List.any_cons, List.any_nil, Event.isNotFound,
            Bool.or_false, Bool.false_or]
          split
          · rfl
          · simp only [List.any_append, List.any_cons, List.any_nil, Event.isNotFound,
              Bool.or_false, Bool.false_or]
            split
            · rfl
            · simp only [List.any_append, List.any_cons, List.any_nil, Event.isNotFound,
                Bool.or_false, Bool.false_or]
              split <;> rfl
  · simp only [ReadMany, List.any_append, hpre, List.any_cons, List.any_nil, Event.isNotFound,
      Bool.or_false, Bool.false_or]
    split
    · rfl
    · split
      · rfl
      · split
        · simp only [List.any_append, List.any_cons, List.any_nil, Event.isNotFound,
            Bool.or_false, Bool.false_or]
          split <;> rfl
        · split
          · simp only [List.any_append, List.any_cons, List.any_nil, Event.isNotFound,
              Bool.or_false, Bool.false_or]
            split <;> rfl
          · split
            · simp only [List.any_append, List.any_cons, List.any_nil, Event.isNotFound,
                Bool.or_false, Bool.false_or]
              split
              · rfl
              · simp only [List.any_append, hreg, Bool.false_or]
                split <;> rfl
            · simp only [List.any_append, List.any_cons, List.any_nil, Event.isNotFound,
                Bool.or_false, Bool.false_or]
              split
              · rfl
              · simp only [List.any_append, hreg, List.any_cons, List.any_nil,
                  Event.isNotFound, Bool.or_false]
  · simp only [UpdateMany, List.any_append, hpre, List.any_cons, List.any_nil,
      Event.isNotFound, Bool.or_false, Bool.false_or]
    split
    · rfl
    · split <;> rfl
  · simp only [Delete, List.any_append, hpre, List.any_cons, List.any_nil, Event.isNotFound,
      Bool.or_false, Bool.false_or]
    split
    · rfl
    · simp only [List.any_append, List.any_cons, List.any_nil, Event.isNotFound,
        Bool.or_false, Bool.false_or]
      split <;> rfl
  · simp only [DeleteMany, List.any_append, hpre, List.any_cons, List.any_nil,
      Event.isNotFound, Bool.or_false, Bool.false_or]
    split
    · rfl
    · simp only [List.any_append, List.any_cons, List.any_nil, Event.isNotFound,
        Bool.or_false, Bool.false_or]
      split
      · rfl
      · split <;> rfl


theorem Read_perf_error (w : World) (id : GoString) (hauth : w.passesAuth = true)
    (hperf : w.Has "perf".toList = true) (e : GoError)
    (he : (LoadJobPerf w.env id).1.2 = some e) :
    Read w id = w.preamble ++ (LoadJobPerf w.env id).2 ++
      (if e.Error = w.MongoDocNotFound then [.RespondWithNotFound]
       else
         [.loggerError ("Err@LoadJobPerf: ".toList ++ id ++ ":".toList ++ e.Error),
          .RespondWithErrorMessage ("job perf stats not found:".toList ++ id) 400]) := by
  rw [Read_unfold w id hauth]
  rcases hres : (LoadJobPerf w.env id).1 with ⟨perf, err⟩
  rw [hres] at he
  simp only at he
  subst he
  simp only [hperf, if_true, List.append_assoc]

theorem Read_perf_ok (w : World) (id : GoString) (hauth : w.passesAuth = true)
    (hperf : w.Has "perf".toList = true) (hok : (LoadJobPerf w.env id).1.2 = none) :
    Read w id = w.preamble ++ (LoadJobPerf w.env id).2 ++
      [.RespondWithData (.perf (LoadJobPerf w.env id).1.1)] := by
  rw [Read_unfold w id hauth]
  rcases hres : (LoadJobPerf w.env id).1 with ⟨perf, err⟩
  rw [hres] at hok
  simp only at hok
  subst hok
  simp only [hperf, if_true, List.append_assoc]

theorem Read_job_error (w : World) (id : GoString) (hauth : w.passesAuth = true)
    (hperf : w.Has "perf".toList = false) (e : GoError)
    (he : (LoadJob w.env id).1.2 = some e) :
    Read w id = w.preamble ++ (LoadJob w.env id).2 ++
      (if e.Error = w.MongoDocNotFound then [.RespondWithNotFound]
       else [.RespondWithErrorMessage ("job not found:".toList ++ id) 400]) := by
  rw [Read_unfold w id hauth]
  rcases hres : (LoadJob w.env id).1 with ⟨job, err⟩
  rw [hres] at he
  simp only at he
  subst he
  simp only [hperf, Bool.false_eq_true, if_false, List.append_assoc]

theorem Update_settoken_job_error (w : World) (id token : GoString)
    (hauth : w.passesAuth = true)
    (h1 : w.Has "resume".toList = false) (h2 : w.Has "suspend".toList = false)
    (h3 : w.Has "resubmit".toList = false) (h3b : w.Has "reregister".toList = false)
    (h4 : w.Has "recompute".toList = false) (h5 : w.Has "clientgroup".toList = false)
    (h6 : w.Has "priority".toList = false) (h7 : w.Has "settoken".toList = true)
    (htok : w.RetrieveToken = (token, none)) (e : GoError)
    (he : (LoadJob w.env id).1.2 = some e) :
    Update w id = w.preamble ++ [.RetrieveToken] ++ (LoadJob w.env id).2 ++
      (if e.Error = w.MongoDocNotFound then [.RespondWithNotFound]
       else
         [.loggerError ("Err@job_Read:LoadJob: ".toList ++ id ++ ":".toList ++ e.Error),
          .RespondWithErrorMessage ("job not found:".toList ++ id) 400]) := by
  simp only [World.passesAuth, Bool.not_eq_true'] at hauth
  rcases hres : (LoadJob w.env id).1 with ⟨job, err⟩
  rw [hres] at he
  simp only at he
  subst he
  simp only [Update, World.preamble, hauth, h1, h2, h3, h3b, h4, h5, h6, h7, htok, hres,
    Bool.or_self, Bool.false_eq_true, if_false, if_true, StatusBadRequest, List.append_assoc]

/-- C13: a 404 response is produced only by the perf lookup (the constant
`e.MongoDocNotFound`, declared outside the sources at hand, is taken not to begin with
`(LoadJob) `, the prefix of every error text of `LoadJob`).  `Read` writes a 404 exactly when
the caller passes the admin check, the query has `perf` and `LoadJobPerf` fails with the
document-not-found text; `Update` and the other handlers never write one; and on every failure
of `LoadJob`, `Read` (without `perf`) and the `settoken` branch of `Update` answer 400
`job not found:<id>`. -/
theorem notFound_only_from_perf_lookup (w : World) (id : GoString)
    (hnf : ¬ ("(LoadJob) ".toList <+: w.MongoDocNotFound)) :
    ((Read w id).any Event.isNotFound = true ↔
      (w.passesAuth = true ∧ w.Has "perf".toList = true ∧
        ∃ e, (LoadJobPerf w.env id).1.2 = some e ∧ e.Error = w.MongoDocNotFound)) ∧
    (Update w id).any Event.isNotFound = false ∧
    (Create w).any Event.isNotFound = false ∧
    (ReadMany w).any Event.isNotFound = false ∧
    (UpdateMany w).any Event.isNotFound = false ∧
    (Delete w id).any Event.isNotFound = false ∧
    (DeleteMany w).any Event.isNotFound = false ∧
    (w.passesAuth = true → w.Has "perf".toList = false →
      ∀ e, (LoadJob w.env id).1.2 = some e →
        Read w id = w.preamble ++ (LoadJob w.env id).2 ++
          [.RespondWithErrorMessage ("job not found:".toList ++ id) 400]) ∧
    (w.passesAuth = true → w.Has "resume".toList = false → w.Has "suspend".toList = false →
      w.Has "resubmit".toList = false → w.Has "reregister".toList = false →
      w.Has "recompute".toList = false → w.Has "clientgroup".toList = false →
      w.Has "priority".toList = false → w.Has "settoken".toList = true →
      ∀ token, w.RetrieveToken = (token, none) →
      ∀ e, (LoadJob w.env id).1.2 = some e →
        Update w id = w.preamble ++ [.RetrieveToken] ++ (LoadJob w.env id).2 ++
          [.loggerError ("Err@job_Read:LoadJob: ".toList ++ id ++ ":".toList ++ e.Error),
           .RespondWithErrorMessage ("job not found:".toList ++ id) 400]) := by
  have hpre := any_isNotFound_of_status_none _ (preamble_status w)
  have hlj := any_isNotFound_of_status_none _ (LoadJob_events_not_response w.env id)
  have hlp : (LoadJobPerf w.env id).2.any Event.isNotFound = false := by
    rw [LoadJobPerf_events]
    rfl
  obtain ⟨o1, o2, o3, o4, o5⟩ := other_handlers_no_404 w id
  refine ⟨?_, Update_no_404 w id hnf, o1, o2, o3, o4, o5, ?_, ?_⟩
  · by_cases hauth : w.passesAuth = true
    · by_cases hperf : w.Has "perf".toList = true
      · cases herr : (LoadJobPerf w.env id).1.2 with
        | none =>
          have hfalse : (Read w id).any Event.isNotFound = false := by
            rw [Read_perf_ok w id hauth hperf herr]
            simp only [List.any_append, hpre, hlp, List.any_cons, List.any_nil,
              Event.isNotFound, Bool.or_false]
          rw [hfalse]
          constructor
          · intro h; cases h
          · rintro ⟨_, _, e, he, _⟩
            cases he
        | some e =>
          rw [Read_perf_error w id hauth hperf e herr]
          by_cases hm : e.Error = w.MongoDocNotFound
          · rw [if_pos hm]
            constructor
            · intro _
              exact ⟨hauth, hperf, e, rfl, hm⟩
            · intro _
              simp only [List.any_append, List.any_cons, Event.isNotFound, Bool.true_or,
                Bool.or_true]
          · rw [if_neg hm]
            have hfalse : (w.preamble ++ (LoadJobPerf w.env id).2 ++
                [Event.loggerError ("Err@LoadJobPerf: ".toList ++ id ++ ":".toList ++ e.Error),
                 Event.RespondWithErrorMessage ("job perf stats not found:".toList ++ id)
                   400]).any Event.isNotFound = false := by
              simp only [List.any_append, hpre, hlp, List.any_cons, List.any_nil,
                Event.isNotFound, Bool.or_false]
            rw [hfalse]
            constructor
            · intro h; cases h
            · rintro ⟨_, _, e2, he2, hm2⟩
              cases he2
              exact absurd hm2 hm
      · have hperf2 : w.Has "perf".toList = false := Bool.eq_false_iff.mpr hperf
        have hfalse : (Read w id).any Event.isNotFound = false := by
          cases herr : (LoadJob w.env id).1.2 with
          | none => exact Read_job_loaded_no_404 w id hauth hperf2 herr
          | some e =>
            rw [Read_job_error w id hauth hperf2 e herr,
              if_neg (LoadJob_error_ne w id e hnf herr)]
            simp only [List.any_append, hpre, hlj, List.any_cons, List.any_nil,
              Event.isNotFound, Bool.or_false]
        rw [hfalse]
        constructor
        · intro h; cases h
        · rintro ⟨_, hp, _⟩
          exact absurd hp hperf
    · have hno : (w.env.conf.ADMIN_AUTH && (w.AdminAuthenticated == false)) = true := by
        simp only [World.passesAuth, Bool.not_eq_true', Bool.not_eq_false] at hauth
        exact hauth
      have hfalse : (Read w id).any Event.isNotFound = false := by
        simp only [Read, hno, if_true, List.append_nil, List.any_append, List.any_cons,
          List.any_nil, Event.isNotFound, Bool.or_false, Bool.false_or]
        split <;> rfl
      rw [hfalse]
      constructor
      · intro h; cases h
      · rintro ⟨ha, _⟩
        exact absurd ha hauth
  · intro hauth hperf e he
    rw [Read_job_error w id hauth hperf e he, if_neg (LoadJob_error_ne w id e hnf he)]
  · intro hauth h1 h2 h3 h3b h4 h5 h6 h7 token htok e he
    rw [Update_settoken_job_error w id token hauth h1 h2 h3 h3b h4 h5 h6 h7 htok e he,
      if_neg (LoadJob_error_ne w id e hnf he)]

theorem notFound_only_from_perf_lookup_witness :
    ¬ ("(LoadJob) ".toList <+: World.jobReadFails.MongoDocNotFound) ∧
    (Update World.jobReadFails "j1".toList).any Event.isNotFound = false ∧
    (World.jobReadFails.passesAuth = true → World.jobReadFails.Has "perf".toList = false →
      ∀ e, (LoadJob World.jobReadFails.env "j1".toList).1.2 = some e →
        Read World.jobReadFails "j1".toList =
          World.jobReadFails.preamble ++ (LoadJob World.jobReadFails.env "j1".toList).2 ++
          [.RespondWithErrorMessage ("job not found:".toList ++ "j1".toList) 400]) :=
  ⟨by decide,
    (notFound_only_from_perf_lookup World.jobReadFails "j1".toList (by decide)).2.1,
    (notFound_only_from_perf_lookup World.jobReadFails "j1".toList (by decide)).2.2.2.2.2.2.2.1⟩


/-- C14 (counterexample): for an authenticated `GET /job/j1?perf` while the store cannot be
reached, `LoadJobPerf` fails with a text other than the document-not-found text, and `Read`
writes one response, of status 400: no response of status 500. -/
theorem Read_persistence_failure_not_500 :
    (LoadJobPerf World.perfReadFails.env "j1".toList).1.2
      = some (.ext "no reachable servers".toList) ∧
    "no reachable servers".toList ≠ World.perfReadFails.MongoDocNotFound ∧
    Read World.perfReadFails "j1".toList =
      [.LogRequest, .AdminAuthenticated, .SessionCopy,
       .FindOne "AWEDB".toList "Perf".toList [("id".toList, .string "j1".toList)],
       .SessionClose,
       .loggerError "Err@LoadJobPerf: j1:no reachable servers".toList,
       .RespondWithErrorMessage "job perf stats not found:j1".toList 400] ∧
    ¬ ∃ ev ∈ Read World.perfReadFails "j1".toList, ev.status = some 500 := by
  refine ⟨rfl, by decide, rfl, ?_⟩
  rintro ⟨ev, hev, hs⟩
  have hmap : (Read World.perfReadFails "j1".toList).map Event.status
      = [none, none, none, none, none, none, some 400] := rfl
  have hmem : ev.status ∈ (Read World.perfReadFails "j1".toList).map Event.status :=
    List.mem_map_of_mem _ hev
  rw [hmap, hs] at hmem
  revert hmem
  decide

/-- C14 (amended): when the read of the store fails with a text other than the
document-not-found text while `Read` loads the perf record or the job, the handler answers 400,
with `job perf stats not found:<id>` (after logging the error) or `job not found:<id>`. -/
theorem Read_failed_load_responds_400 (w : World) (id : GoString)
    (hauth : w.passesAuth = true) :
    (w.Has "perf".toList = true →
      ∀ e, (LoadJobPerf w.env id).1.2 = some e → e.Error ≠ w.MongoDocNotFound →
        Read w id = w.preamble ++ (LoadJobPerf w.env id).2 ++
          [.loggerError ("Err@LoadJobPerf: ".toList ++ id ++ ":".toList ++ e.Error),
           .RespondWithErrorMessage ("job perf stats not found:".toList ++ id) 400]) ∧
    (w.Has "perf".toList = false →
      ∀ e, (LoadJob w.env id).1.2 = some e → e.Error ≠ w.MongoDocNotFound →
        Read w id = w.preamble ++ (LoadJob w.env id).2 ++
          [.RespondWithErrorMessage ("job not found:".toList ++ id) 400]) := by
  constructor
  · intro hperf e he hne
    rw [Read_perf_error w id hauth hperf e he, if_neg hne]
  · intro hperf e he hne
    rw [Read_job_error w id hauth hperf e he, if_neg hne]

theorem Read_failed_load_responds_400_witness :
    World.perfReadFails.passesAuth = true ∧
    (World.perfReadFails.Has "perf".toList = true →
      ∀ e, (LoadJobPerf World.perfReadFails.env "j1".toList).1.2 = some e →
        e.Error ≠ World.perfReadFails.MongoDocNotFound →
        Read World.perfReadFails "j1".toList =
          World.perfReadFails.preamble ++ (LoadJobPerf World.perfReadFails.env "j1".toList).2 ++
          [.loggerError ("Err@LoadJobPerf: ".toList ++ "j1".toList ++ ":".toList ++ e.Error),
           .RespondWithErrorMessage ("job perf stats not found:".toList ++ "j1".toList) 400]) :=
  ⟨rfl, (Read_failed_load_responds_400 World.perfReadFails "j1".toList rfl).1⟩


/-! ## Bounds of the identifier parser -/

/-- C24: `New_Workunit_Unique_Identifier_FromString` performs no out-of-range access, on any
input and with any task parser: the split has at least one element, so `array[len-1]` exists,
and the slice `array[0:len-2]` is taken only when `len > 1`, where its bounds hold; the function
returns (a value or an error). -/
theorem FromString_no_fault (f : GoString → Task_Unique_Identifier × error) (s : GoString) :
    1 ≤ (Split s '_').length ∧
    index (Split s '_') (((Split s '_').length : Int) - 1) ≠ none ∧
    ((Split s '_').length > 1 →
      slice (Split s '_') 0 (((Split s '_').length : Int) - 2) ≠ none) ∧
    New_Workunit_Unique_Identifier_FromString f s ≠ none := by
  have hne := Split_ne_nil s '_'
  have hlen : 1 ≤ (Split s '_').length := by
    cases h : Split s '_' with
    | nil => exact absurd h hne
    | cons a rest => simp
  obtain ⟨pieces, r, hsplit⟩ : ∃ pieces r, Split s '_' = pieces ++ [r] := by
    refine ⟨(Split s '_').dropLast, (Split s '_').getLast hne, ?_⟩
    exact (List.dropLast_append_getLast hne).symm
  refine ⟨hlen, ?_, ?_, ?_⟩
  · rw [hsplit, index_length_sub_one]
    simp
  · intro hgt
    rw [slice_zero_some _ _ (by omega) (by omega)]
    simp
  · rw [FromString_of_Split f s pieces r hsplit]
    rcases Atoi r with ⟨rank, e⟩
    cases e with
    | some err => simp
    | none =>
      rcases f (Join pieces.dropLast "_".toList) with ⟨t, e2⟩
      cases e2 <;> simp

/-! ## Requirement arrays -/

theorem AddRequirement_loop_iff (cls : GoString) (l : List Requirement) :
    AddRequirement.loop cls l = true ↔ ∃ x ∈ l, x.GetClass = cls := by
  induction l with
  | nil => simp [AddRequirement.loop]
  | cons r rest ih =>
    by_cases hr : r.GetClass = cls
    · simp [AddRequirement.loop, hr]
    · simp [AddRequirement.loop, hr, ih]

theorem DeleteRequirement_loop_eq (cls : GoString) (l acc : List Requirement) :
    DeleteRequirement.loop cls l acc
      = acc ++ l.filter (fun x => decide (x.GetClass ≠ cls)) := by
  induction l generalizing acc with
  | nil => simp [DeleteRequirement.loop]
  | cons r rest ih =>
    by_cases hr : r.GetClass = cls
    · simp [DeleteRequirement.loop, hr, ih]
    · simp [DeleteRequirement.loop, hr, ih]

theorem GetRequirement_loop_none (cls : GoString) (l : List Requirement) (i : Nat) :
    GetRequirement.loop cls l i = none ↔ ∀ x ∈ l, x.GetClass ≠ cls := by
  induction l generalizing i with
  | nil => simp [GetRequirement.loop]
  | cons r rest ih =>
    by_cases hr : r.GetClass = cls
    · simp [GetRequirement.loop, hr]
    · simp [GetRequirement.loop, hr, ih]

theorem GetRequirement_loop_some (cls : GoString) (l : List Requirement) (i j : Nat)
    (h : GetRequirement.loop cls l i = some j) :
    i ≤ j ∧ ∃ x, l.get? (j - i) = some x ∧ x.GetClass = cls := by
  induction l generalizing i with
  | nil => simp [GetRequirement.loop] at h
  | cons r rest ih =>
    by_cases hr : r.GetClass = cls
    · simp only [GetRequirement.loop, hr, if_true, Option.some.injEq] at h
      subst h
      exact ⟨le_refl _, r, by simp, hr⟩
    · simp only [GetRequirement.loop, hr, if_false] at h
      obtain ⟨hle, x, hx, hcls⟩ := ih (i + 1) h
      refine ⟨by omega, x, ?_, hcls⟩
      have e : j - i = (j - (i + 1)) + 1 := by omega
      rw [e]
      simpa using hx


theorem AddRequirement_of_present (r : Requirement) (a : Option (List Requirement))
    (h : ∃ x ∈ a.getD [], x.GetClass = r.GetClass) : AddRequirement r a = (a, none) := by
  cases a with
  | none => simp at h
  | some l =>
    have hl : AddRequirement.loop r.GetClass l = true :=
      (AddRequirement_loop_iff r.GetClass l).mpr (by simpa using h)
    simp [AddRequirement, hl]

theorem AddRequirement_of_absent (r : Requirement) (a : Option (List Requirement))
    (h : ∀ x ∈ a.getD [], x.GetClass ≠ r.GetClass) :
    AddRequirement r a = (some (a.getD [] ++ [r]), none) := by
  cases a with
  | none => rfl
  | some l =>
    have hl : AddRequirement.loop r.GetClass l = false := by
      rw [Bool.eq_false_iff]
      intro hc
      obtain ⟨x, hx, hcls⟩ := (AddRequirement_loop_iff r.GetClass l).mp hc
      exact h x (by simpa using hx) hcls
    simp [AddRequirement, hl]

theorem GetRequirement_of_present (cls : GoString) (l : List Requirement)
    (h : ∃ x ∈ l, x.GetClass = cls) :
    ∃ i x, GetRequirement cls (some l) = ((some i, none), []) ∧ l.get? i = some x ∧
      x.GetClass = cls := by
  cases hloop : GetRequirement.loop cls l 0 with
  | none =>
    exfalso
    obtain ⟨x, hx, hcls⟩ := h
    exact (GetRequirement_loop_none cls l 0).mp hloop x hx hcls
  | some j =>
    obtain ⟨_, x, hx, hcls⟩ := GetRequirement_loop_some cls l 0 j hloop
    refine ⟨j, x, ?_, by simpa using hx, hcls⟩
    simp [GetRequirement, hloop]

theorem GetRequirement_of_absent (cls : GoString) (l : List Requirement)
    (h : ∀ x ∈ l, x.GetClass ≠ cls) :
    GetRequirement cls (some l) =
      ((none, some (.New ("(GetRequirement) requirement ".toList ++ cls
        ++ " not found".toList))),
       [.Println "Requirement array:".toList, .spewDumpRequirements l]) := by
  have hloop := (GetRequirement_loop_none cls l 0).mpr h
  simp only [GetRequirement, hloop]

/-- C26: `AddRequirement(r, a)` never fails; when an element of `a` already has the class of
`r` it returns the pointer `a` itself (`r` is dropped, nothing is replaced); otherwise, `nil`
being read as the empty array, it returns the array `a` with `r` appended at the end; and on the
result `GetRequirement` for the class of `r` succeeds, with a pointer to an element of that
class. -/
theorem AddRequirement_spec (r : Requirement) (a : Option (List Requirement)) :
    ((∃ x ∈ a.getD [], x.GetClass = r.GetClass) → AddRequirement r a = (a, none)) ∧
    ((∀ x ∈ a.getD [], x.GetClass ≠ r.GetClass) →
      AddRequirement r a = (some (a.getD [] ++ [r]), none)) ∧
    (AddRequirement r a).2 = none ∧
    ∃ array i x, (AddRequirement r a).1 = some array ∧
      GetRequirement r.GetClass (some array) = ((some i, none), []) ∧
      array.get? i = some x ∧ x.GetClass = r.GetClass := by
  refine ⟨AddRequirement_of_present r a, AddRequirement_of_absent r a, ?_, ?_⟩
  · by_cases h : ∃ x ∈ a.getD [], x.GetClass = r.GetClass
    · rw [AddRequirement_of_present r a h]
    · rw [AddRequirement_of_absent r a (by
        intro x hx hc
        exact h ⟨x, hx, hc⟩)]
  · by_cases h : ∃ x ∈ a.getD [], x.GetClass = r.GetClass
    · rw [AddRequirement_of_present r a h]
      cases a with
      | none => simp at h
      | some l =>
        obtain ⟨i, x, hg, hx, hc⟩ := GetRequirement_of_present r.GetClass l (by simpa using h)
        exact ⟨l, i, x, rfl, hg, hx, hc⟩
    · rw [AddRequirement_of_absent r a (by
        intro x hx hc
        exact h ⟨x, hx, hc⟩)]
      obtain ⟨i, x, hg, hx, hc⟩ := GetRequirement_of_present r.GetClass (a.getD [] ++ [r])
        ⟨r, by simp, rfl⟩
      exact ⟨_, i, x, rfl, hg, hx, hc⟩

/-- C27: when no element of `a` has the class of `r`, deleting that class from
`AddRequirement(r, a)` gives an array with the requirements of `a` in their order (`nil` read
as the empty array), without error, and `GetRequirement` for that class fails on it. -/
theorem DeleteRequirement_AddRequirement (r : Requirement) (a : Option (List Requirement))
    (h : ∀ x ∈ a.getD [], x.GetClass ≠ r.GetClass) :
    DeleteRequirement r.GetClass (AddRequirement r a).1 = (some (a.getD []), none) ∧
    (GetRequirement r.GetClass (DeleteRequirement r.GetClass (AddRequirement r a).1).1).1
      = (none, some (.New ("(GetRequirement) requirement ".toList ++ r.GetClass
          ++ " not found".toList))) := by
  have hdel : DeleteRequirement r.GetClass (AddRequirement r a).1 = (some (a.getD []), none) := by
    rw [AddRequirement_of_absent r a h]
    simp only [DeleteRequirement, DeleteRequirement_loop_eq, List.nil_append, List.filter_append]
    have h1 : (a.getD []).filter (fun x => decide (x.GetClass ≠ r.GetClass)) = a.getD [] := by
      rw [List.filter_eq_self]
      intro x hx
      simpa using h x hx
    have h2 : [r].filter (fun x => decide (x.GetClass ≠ r.GetClass)) = [] := by
      simp
    rw [h1, h2, List.append_nil]
  refine ⟨hdel, ?_⟩
  rw [hdel, GetRequirement_of_absent r.GetClass (a.getD []) h]

theorem DeleteRequirement_AddRequirement_witness :
    (∀ x ∈ (some threeRequirements).getD [],
      x.GetClass ≠ Requirement.GetClass ⟨"ResourceRequirement".toList, 4⟩) ∧
    DeleteRequirement (Requirement.GetClass ⟨"ResourceRequirement".toList, 4⟩)
        (AddRequirement ⟨"ResourceRequirement".toList, 4⟩ (some threeRequirements)).1
      = (some ((some threeRequirements).getD []), none) :=
  ⟨by decide,
    (DeleteRequirement_AddRequirement ⟨"ResourceRequirement".toList, 4⟩ (some threeRequirements)
      (by decide)).1⟩


/-! ## The error of the generic find -/

/-- C21 (counterexample): with `limit` alone in `options` (a non-nil `results`, a successful
count), `dbFind` returns the error of its own check and does not call `results.Init()`; the
error it returns is not the error of `Init`, which is `nil` on every value in this
environment. -/
theorem dbFind_limit_only_error_not_from_Init :
    Env.quiet.Count "AWEDB".toList "Jobs".toList [] = (3, none) ∧
    dbFind Env.quiet [] (some []) [("limit".toList, 5)] =
      ((0, some (.New "store.db.Find options limit and offset must be used together".toList)),
       some [], [.SessionCopy, .Count "AWEDB".toList "Jobs".toList [], .SessionClose]) ∧
    ¬ ∃ jobs : List Job,
      (dbFind Env.quiet [] (some []) [("limit".toList, 5)]).1.2
        = (Env.quiet.JobsInit jobs).2.2.map GoError.ext := by
  refine ⟨rfl, rfl, ?_⟩
  rintro ⟨jobs, h⟩
  have h1 : (dbFind Env.quiet [] (some []) [("limit".toList, 5)]).1.2
      = some (.New "store.db.Find options limit and offset must be used together".toList) := rfl
  have h2 : (Env.quiet.JobsInit jobs).2.2.map GoError.ext = none := rfl
  rw [h1, h2] at h
  cases h

/-- C21 (amended): for a non-nil `results` and a successful count, unless `limit` is present
without `offset`, `dbFind` runs the result query (paged when both options are present), calls
`results.Init()` on what the query stored, and returns the count with exactly the error of
`Init`; the error of the result query is dropped, so when `Init` succeeds `dbFind` returns no
error whatever the result query answered. -/
theorem dbFind_error_is_Init_error (env : Env) (q : M) (r : List Job)
    (options : List (GoString × Int)) (count : Int)
    (hc : env.Count env.conf.MONGODB_DATABASE env.conf.DB_COLL_JOBS q = (count, none))
    (hguard : lookupOption options "limit".toList = none ∨
      lookupOption options "offset".toList ≠ none) :
    (dbFind env q (some r) options).1 =
      (count,
        (env.JobsInit (env.All env.conf.MONGODB_DATABASE env.conf.DB_COLL_JOBS q
          (pageOption options) (some r)).1).2.2.map GoError.ext) ∧
    ((env.JobsInit (env.All env.conf.MONGODB_DATABASE env.conf.DB_COLL_JOBS q
          (pageOption options) (some r)).1).2.2 = none →
      (dbFind env q (some r) options).1.2 = none) ∧
    (dbFind env q (some r) options).2.2 =
      [.SessionCopy, .Count env.conf.MONGODB_DATABASE env.conf.DB_COLL_JOBS q,
       .All env.conf.MONGODB_DATABASE env.conf.DB_COLL_JOBS q (pageOption options),
       .JobsInit (env.All env.conf.MONGODB_DATABASE env.conf.DB_COLL_JOBS q
          (pageOption options) (some r)).1,
       .SessionClose] := by
  have key : (dbFind env q (some r) options).1 =
      (count,
        (env.JobsInit (env.All env.conf.MONGODB_DATABASE env.conf.DB_COLL_JOBS q
          (pageOption options) (some r)).1).2.2.map GoError.ext) ∧
      (dbFind env q (some r) options).2.2 =
      [.SessionCopy, .Count env.conf.MONGODB_DATABASE env.conf.DB_COLL_JOBS q,
       .All env.conf.MONGODB_DATABASE env.conf.DB_COLL_JOBS q (pageOption options),
       .JobsInit (env.All env.conf.MONGODB_DATABASE env.conf.DB_COLL_JOBS q
          (pageOption options) (some r)).1,
       .SessionClose] := by
    cases hl : lookupOption options "limit".toList with
    | none =>
      simp only [dbFind, hc, hl, pageOption]
      exact ⟨trivial, trivial⟩
    | some limit =>
      cases ho : lookupOption options "offset".toList with
      | none =>
        rcases hguard with hg | hg
        · rw [hl] at hg
          cases hg
        · exact absurd ho hg
      | some offset =>
        simp only [dbFind, hc, hl, ho, pageOption]
        exact ⟨trivial, trivial⟩
  refine ⟨key.1, ?_, key.2⟩
  intro hinit
  rw [key.1]
  simp only [hinit, Option.map_none']

theorem dbFind_error_is_Init_error_witness :
    Env.allFails.Count Env.allFails.conf.MONGODB_DATABASE Env.allFails.conf.DB_COLL_JOBS []
      = (3, none) ∧
    (lookupOption [] "limit".toList = none ∨ lookupOption [] "offset".toList ≠ none) ∧
    (Env.allFails.All Env.allFails.conf.MONGODB_DATABASE Env.allFails.conf.DB_COLL_JOBS []
      (pageOption []) (some [])).2 = some "cursor lost".toList ∧
    (dbFind Env.allFails [] (some []) []).1 =
      (3,
        (Env.allFails.JobsInit (Env.allFails.All Env.allFails.conf.MONGODB_DATABASE
          Env.allFails.conf.DB_COLL_JOBS [] (pageOption []) (some [])).1).2.2.map GoError.ext) ∧
    (dbFind Env.allFails [] (some []) []).1.2 = none :=
  ⟨rfl, Or.inl rfl, rfl,
    (dbFind_error_is_Init_error Env.allFails [] [] [] 3 rfl (Or.inl rfl)).1,
    (dbFind_error_is_Init_error Env.allFails [] [] [] 3 rfl (Or.inl rfl)).2.1 rfl⟩


/-! ## The two paging loops of `ReadMany` -/

theorem registeredLoop_eq (member : GoString → Bool) (J : List Job) :
    registeredLoop member J = (J.filter (fun job => member job.Id)).map markRegistered := by
  induction J with
  | nil => rfl
  | cons job rest ih =>
    by_cases hm : member job.Id = true
    · simp [registeredLoop, hm, ih, markRegistered]
    · have hm2 : member job.Id = false := by simpa using hm
      simp [registeredLoop, hm2, ih]

theorem filterLoop_no_limit (member : GoString → Bool) (offset limit : Int) (J : List Job)
    (skip count : Int) (hs : skip ≤ offset) (hc : limit ≤ count) :
    filterLoop member offset limit J skip count =
      ((J.filter (fun job => member job.Id)).map markRegistered).drop (offset - skip).toNat := by
  induction J generalizing skip count with
  | nil => simp [filterLoop]
  | cons job rest ih =>
    by_cases hm : member job.Id = true
    · by_cases hsk : skip < offset
      · have e : (offset - skip).toNat = (offset - (skip + 1)).toNat + 1 := by omega
        simp only [filterLoop, hm, if_true, hsk, List.filter_cons_of_pos, List.map_cons, e,
          List.drop_succ_cons]
        exact ih (skip + 1) count (by omega) hc
      · have e0 : (offset - skip).toNat = 0 := by omega
        have hl : ¬ count + 1 = limit := by omega
        have := ih skip (count + 1) hs (by omega)
        rw [e0] at this
        simp only [filterLoop, hm, if_true, hsk, if_false, hl, List.filter_cons_of_pos,
          List.map_cons, e0, List.drop_zero]
        rw [this]
        simp [markRegistered]
    · have hm2 : member job.Id = false := by simpa using hm
      simp only [filterLoop, hm2, Bool.false_eq_true, if_false]
      rw [ih skip count hs hc]
      simp [hm2]

theorem filterLoop_pageFrom (member : GoString → Bool) (offset limit : Int) (J : List Job)
    (hoff : 0 ≤ offset) :
    filterLoop member offset limit J 0 0 =
      pageFrom offset limit ((J.filter (fun job => member job.Id)).map markRegistered) := by
  by_cases hl : 1 ≤ limit
  · rw [filterLoop_eq member offset limit J 0 0 hoff (by omega)]
    simp [pageFrom, hl]
  · rw [filterLoop_no_limit member offset limit J 0 0 hoff (by omega)]
    simp [pageFrom, hl]

theorem pagingLoop_eq (regs : List Job) (limit : Int) (fuel : Nat) (i count : Int)
    (acc : List Job) (hi : 0 ≤ i) (hfuel : regs.length < fuel + i.toNat) :
    pagingLoop regs limit fuel i count acc =
      some (acc ++
        (if count < limit then (regs.drop i.toNat).take (limit - count).toNat
         else regs.drop i.toNat)) := by
  induction fuel generalizing i count acc with
  | zero =>
    have hd : regs.drop i.toNat = [] := List.drop_eq_nil_of_le (by omega)
    simp [pagingLoop, hd]
  | succ fuel ih =>
    by_cases hlt : i < regs.length
    · have hlt2 : i.toNat < regs.length := by omega
      have hidx : index regs i = some regs[i.toNat] := by
        simp [index, hi, hlt, List.getElem?_eq_getElem hlt2]
      have hdrop : regs.drop i.toNat = regs[i.toNat] :: regs.drop (i + 1).toNat := by
        have e : (i + 1).toNat = i.toNat + 1 := by omega
        rw [e]
        exact List.drop_eq_getElem_cons hlt2
      simp only [pagingLoop, hlt, if_true, hidx]
      by_cases hl : count + 1 = limit
      · have hcl : count < limit := by omega
        have e1 : (limit - count).toNat = 1 := by omega
        simp [hl, hcl, e1, hdrop]
      · simp only [hl, if_false]
        rw [ih (i + 1) (count + 1) _ (by omega) (by omega), hdrop]
        by_cases hcl : count < limit
        · have hcl2 : count + 1 < limit := by omega
          have e1 : (limit - count).toNat = (limit - (count + 1)).toNat + 1 := by omega
          simp [hcl, hcl2, e1]
        · have hcl2 : ¬ count + 1 < limit := by omega
          simp [hcl, hcl2]
    · have hd : regs.drop i.toNat = [] := List.drop_eq_nil_of_le (by omega)
      simp [pagingLoop, hlt, hd]

theorem pagingLoop_pageFrom (regs : List Job) (offset limit : Int) (hoff : 0 ≤ offset) :
    pagingLoop regs limit (regs.length + 1) offset 0 [] = some (pageFrom offset limit regs) := by
  rw [pagingLoop_eq regs limit (regs.length + 1) offset 0 [] hoff (by omega)]
  have e : (0 < limit) = (1 ≤ limit) := by
    apply propext
    omega
  simp only [List.nil_append, pageFrom, e, Int.sub_zero]

theorem pagingLoop_negative (regs : List Job) (offset limit : Int) (fuel : Nat)
    (hoff : offset < 0) :
    offset < regs.length ∧ index regs offset = none ∧
    pagingLoop regs limit (fuel + 1) offset 0 [] = none := by
  have hlt : offset < regs.length := by omega
  have hidx : index regs offset = none := by
    have : ¬ (0 ≤ offset ∧ offset < regs.length) := by omega
    simp [index, this]
  exact ⟨hlt, hidx, by simp only [pagingLoop, hlt, if_true, hidx]⟩


/-- C22: for every job sequence `J`, membership predicate, `offset ≥ 0` and `limit`, the
two-pass paging of the `registered` listing (first the registered jobs, then the copy from index
`offset` until `limit` jobs are taken) ends without fault and gives the page of the single-pass
skip/count loop of the `active` and `suspend` listings: the selected jobs of `J`, marked
registered, from index `offset` on, cut to `limit` jobs when `limit ≥ 1`. -/
theorem registered_paging_eq_single_pass (member : GoString → Bool) (J : List Job)
    (offset limit : Int) (hoff : 0 ≤ offset) :
    pagingLoop (registeredLoop member J) limit ((registeredLoop member J).length + 1) offset 0 []
      = some (filterLoop member offset limit J 0 0) ∧
    filterLoop member offset limit J 0 0 =
      pageFrom offset limit ((J.filter (fun job => member job.Id)).map markRegistered) := by
  refine ⟨?_, filterLoop_pageFrom member offset limit J hoff⟩
  rw [pagingLoop_pageFrom _ offset limit hoff, filterLoop_pageFrom member offset limit J hoff,
    registeredLoop_eq]

theorem registered_paging_eq_single_pass_witness :
    (0 : Int) ≤ 1 ∧
    pagingLoop (registeredLoop (fun id => id != "a".toList) threeJobs) 1
        ((registeredLoop (fun id => id != "a".toList) threeJobs).length + 1) 1 0 []
      = some (filterLoop (fun id => id != "a".toList) 1 1 threeJobs 0 0) ∧
    filterLoop (fun id => id != "a".toList) 1 1 threeJobs 0 0
      = [markRegistered (Job.withId "c".toList)] :=
  ⟨by decide,
    (registered_paging_eq_single_pass (fun id => id != "a".toList) threeJobs 1 1
      (by decide)).1,
    rfl⟩

/-- C23: in the `registered` listing of `ReadMany` the reads `registered_jobs[i]` of the paging
loop are within bounds exactly when `offset ≥ 0`.  For a negative `offset` and every job list
the loop condition holds at the first iteration and the read at index `offset` faults; the
handler, which takes `offset` from the query without a check, then ends in a run-time fault
after fetching the jobs.  For `offset ≥ 0` it responds with the page. -/
theorem registered_paging_bounds (w : World) (q : M) (J : List Job)
    (hauth : w.passesAuth = true) (hact : w.Has "active".toList = false)
    (hsus : w.Has "suspend".toList = false) (hreg : w.Has "registered".toList = true)
    (hq : ReadMany.q w = some q)
    (hJ : w.GetAll q (ReadMany.order w) (ReadMany.direction w) = (J, none)) :
    (∀ (regs : List Job) (limit offset : Int),
      (pagingLoop regs limit (regs.length + 1) offset 0 [] ≠ none ↔ 0 ≤ offset) ∧
      (offset < 0 → offset < regs.length ∧ index regs offset = none)) ∧
    (ReadMany.offset w < 0 →
      ReadMany w = w.preamble ++
        [.GetAll q (ReadMany.order w) (ReadMany.direction w)] ++
        J.map (fun job => Event.IsJobRegistered job.Id) ++ [.panic]) ∧
    (0 ≤ ReadMany.offset w →
      ReadMany w = w.preamble ++
        [.GetAll q (ReadMany.order w) (ReadMany.direction w)] ++
        J.map (fun job => Event.IsJobRegistered job.Id) ++
        [.RespondWithPaginatedData
          (pageFrom (ReadMany.offset w) (ReadMany.limit w) (registeredLoop w.IsJobRegistered J))
          (ReadMany.limit w) (ReadMany.offset w) (registeredLoop w.IsJobRegistered J).length]) := by
  simp only [World.passesAuth, Bool.not_eq_true'] at hauth
  simp only [ReadMany.q, hact, hsus, Bool.false_eq_true, if_false] at hq
  simp only [ReadMany.order, ReadMany.direction] at hJ
  refine ⟨?_, ?_, ?_⟩
  · intro regs limit offset
    constructor
    · constructor
      · intro h
        by_contra hneg
        exact h (pagingLoop_negative regs offset limit regs.length (by omega)).2.2
      · intro h
        rw [pagingLoop_pageFrom regs offset limit h]
        exact fun e => Option.noConfusion e
    · intro h
      exact ⟨(pagingLoop_negative regs offset limit 0 h).1,
        (pagingLoop_negative regs offset limit 0 h).2.1⟩
  · intro hneg
    have hp := (pagingLoop_negative (registeredLoop w.IsJobRegistered J) (ReadMany.offset w)
      (ReadMany.limit w) (registeredLoop w.IsJobRegistered J).length hneg).2.2
    simp only [ReadMany.offset, ReadMany.limit] at hp
    simp only [ReadMany, World.preamble, hauth, Bool.false_eq_true, if_false, hq, hact, hsus,
      hreg, if_true, hJ, hp, ReadMany.order, ReadMany.direction, ReadMany.offset,
      ReadMany.limit, List.append_assoc]
  · intro hpos
    have hp := pagingLoop_pageFrom (registeredLoop w.IsJobRegistered J) (ReadMany.offset w)
      (ReadMany.limit w) hpos
    simp only [ReadMany.offset, ReadMany.limit] at hp
    simp only [ReadMany, World.preamble, hauth, Bool.false_eq_true, if_false, hq, hact, hsus,
      hreg, if_true, hJ, hp, ReadMany.order, ReadMany.direction, ReadMany.offset,
      ReadMany.limit, List.append_assoc]

theorem registered_paging_bounds_witness :
    World.registeredNegative.passesAuth = true ∧
    World.registeredNegative.Has "active".toList = false ∧
    World.registeredNegative.Has "suspend".toList = false ∧
    World.registeredNegative.Has "registered".toList = true ∧
    ReadMany.q World.registeredNegative = some [] ∧
    World.registeredNegative.GetAll [] (ReadMany.order World.registeredNegative)
      (ReadMany.direction World.registeredNegative) = (threeJobs, none) ∧
    ReadMany.offset World.registeredNegative = -1 ∧
    (ReadMany.offset World.registeredNegative < 0 →
      ReadMany World.registeredNegative = World.registeredNegative.preamble ++
        [.GetAll [] (ReadMany.order World.registeredNegative)
          (ReadMany.direction World.registeredNegative)] ++
        threeJobs.map (fun job => Event.IsJobRegistered job.Id) ++ [.panic]) :=
  ⟨rfl, rfl, rfl, rfl, rfl, rfl, by decide,
    (registered_paging_bounds World.registeredNegative [] threeJobs rfl rfl rfl rfl rfl rfl).2.1⟩


/-! ## The dispatch of `Update` -/

theorem LoadJob_events_no_job_operation (env : Env) (id : GoString) :
    (LoadJob env id).2.filter Event.isUpdateOp = [] ∧
    (LoadJob env id).2.any Event.isSetToken = false := by
  unfold LoadJob
  simp only
  split
  · exact ⟨rfl, rfl⟩
  · split
    · exact ⟨rfl, rfl⟩
    · split <;> exact ⟨rfl, rfl⟩

/-- C25: for a caller who passes the admin check, the calls that `Update` makes to the six job
operations of the queue manager are at most one: the operation of the first selector present in
the order `resume`, `suspend`, `resubmit`/`reregister`, `recompute`, `clientgroup`, `priority`
(none when no such selector is present); and the token of the request is read, for `settoken`,
exactly when none of those selectors is present and `settoken` is. -/
theorem Update_invokes_first_selector_only (w : World) (id : GoString)
    (hauth : w.passesAuth = true) :
    (Update w id).filter Event.isUpdateOp =
      (if w.Has "resume".toList then [.ResumeSuspendedJob id]
       else if w.Has "suspend".toList then [.SuspendJob id "manually suspended".toList]
       else if w.Has "resubmit".toList || w.Has "reregister".toList then [.ResubmitJob id]
       else if w.Has "recompute".toList then [.RecomputeJob id (w.Value "recompute".toList)]
       else if w.Has "clientgroup".toList then
         [.UpdateGroup id (w.Value "clientgroup".toList)]
       else if w.Has "priority".toList then
         [.UpdatePriority id (Atoi (w.Value "priority".toList)).1]
       else []) ∧
    ((Update w id).any Event.isSetToken = true ↔
      (w.Has "resume".toList = false ∧ w.Has "suspend".toList = false ∧
       w.Has "resubmit".toList = false ∧ w.Has "reregister".toList = false ∧
       w.Has "recompute".toList = false ∧ w.Has "clientgroup".toList = false ∧
       w.Has "priority".toList = false ∧ w.Has "settoken".toList = true)) := by
  simp only [World.passesAuth, Bool.not_eq_true'] at hauth
  have hpre : ((if w.env.conf.ADMIN_AUTH then [Event.AdminAuthenticated] else [])).filter
      Event.isUpdateOp = [] := by
    split <;> rfl
  have hpre2 : ((if w.env.conf.ADMIN_AUTH then [Event.AdminAuthenticated] else [])).any
      Event.isSetToken = false := by
    split <;> rfl
  obtain ⟨hl1, hl2⟩ := LoadJob_events_no_job_operation w.env id
  by_cases h1 : w.Has "resume".toList = true
  · constructor
    · simp only [Update, hauth, h1, if_true, Bool.false_eq_true, if_false, List.filter_append,
        hpre]
      split <;> rfl
    · have hfalse : (Update w id).any Event.isSetToken = false := by
        simp only [Update, hauth, h1, if_true, Bool.false_eq_true, if_false, List.any_append,
          hpre2]
        split <;> rfl
      rw [hfalse]
      constructor
      · intro h; cases h
      · rintro ⟨h, _⟩
        rw [h1] at h
        cases h
  have h1f : w.Has "resume".toList = false := Bool.eq_false_iff.mpr h1
  by_cases h2 : w.Has "suspend".toList = true
  · constructor
    · simp only [Update, hauth, h1f, h2, if_true, Bool.false_eq_true, if_false,
        List.filter_append, hpre]
      split <;> rfl
    · have hfalse : (Update w id).any Event.isSetToken = false := by
        simp only [Update, hauth, h1f, h2, if_true, Bool.false_eq_true, if_false,
          List.any_append, hpre2]
        split <;> rfl
      rw [hfalse]
      constructor
      · intro h; cases h
      · rintro ⟨_, h, _⟩
        rw [h2] at h
        cases h
  have h2f : w.Has "suspend".toList = false := Bool.eq_false_iff.mpr h2
  by_cases h3 : (w.Has "resubmit".toList || w.Has "reregister".toList) = true
  · constructor
    · simp only [Update, hauth, h1f, h2f, h3, if_true, Bool.false_eq_true, if_false,
        List.filter_append, hpre]
      split <;> rfl
    · have hfalse : (Update w id).any Event.isSetToken = false := by
        simp only [Update, hauth, h1f, h2f, h3, if_true, Bool.false_eq_true, if_false,
          List.any_append, hpre2]
        split <;> rfl
      rw [hfalse]
      constructor
      · intro h; cases h
      · rintro ⟨_, _, ha, hb, _⟩
        rw [ha, hb] at h3
        cases h3
  have h3f : (w.Has "resubmit".toList || w.Has "reregister".toList) = false :=
    Bool.eq_false_iff.mpr h3
  have h3a : w.Has "resubmit".toList = false := (Bool.or_eq_false_iff.mp h3f).1
  have h3b : w.Has "reregister".toList = false := (Bool.or_eq_false_iff.mp h3f).2
  by_cases h4 : w.Has "recompute".toList = true
  · constructor
    · simp only [Update, hauth, h1f, h2f, h3f, h4, if_true, Bool.false_eq_true, if_false,
        List.filter_append, hpre]
      split <;> split <;> rfl
    · have hfalse : (Update w id).any Event.isSetToken = false := by
        simp only [Update, hauth, h1f, h2f, h3f, h4, if_true, Bool.false_eq_true, if_false,
          List.any_append, hpre2]
        split <;> split <;> rfl
      rw [hfalse]
      constructor
      · intro h; cases h
      · rintro ⟨_, _, _, _, h, _⟩
        rw [h4] at h
        cases h
  have h4f : w.Has "recompute".toList = false := Bool.eq_false_iff.mpr h4
  by_cases h5 : w.Has "clientgroup".toList = true
  · constructor
    · simp only [Update, hauth, h1f, h2f, h3f, h4f, h5, if_true, Bool.false_eq_true, if_false,
        List.filter_append, hpre]
      split <;> split <;> rfl
    · have hfalse : (Update w id).any Event.isSetToken = false := by
        simp only [Update, hauth, h1f, h2f, h3f, h4f, h5, if_true, Bool.false_eq_true,
          if_false, List.any_append, hpre2]
        split <;> split <;> rfl
      rw [hfalse]
      constructor
      · intro h; cases h
      · rintro ⟨_, _, _, _, _, h, _⟩
        rw [h5] at h
        cases h
  have h5f : w.Has "clientgroup".toList = false := Bool.eq_false_iff.mpr h5
  by_cases h6 : w.Has "priority".toList = true
  · constructor
    · simp only [Update, hauth, h1f, h2f, h3f, h4f, h5f, h6, if_true, Bool.false_eq_true,
        if_false, List.filter_append, hpre]
      split <;> split <;> split <;> rfl
    · have hfalse : (Update w id).any Event.isSetToken = false := by
        simp only [Update, hauth, h1f, h2f, h3f, h4f, h5f, h6, if_true, Bool.false_eq_true,
          if_false, List.any_append, hpre2]
        split <;> split <;> split <;> rfl
      rw [hfalse]
      constructor
      · intro h; cases h
      · rintro ⟨_, _, _, _, _, _, h, _⟩
        rw [h6] at h
        cases h
  have h6f : w.Has "priority".toList = false := Bool.eq_false_iff.mpr h6
  by_cases h7 : w.Has "settoken".toList = true
  · constructor
    · simp only [Update, hauth, h1f, h2f, h3f, h4f, h5f, h6f, h7, if_true, Bool.false_eq_true,
        if_false, List.filter_append, hpre]
      split
      · rfl
      · simp only [List.filter_append, hl1]
        split
        · split <;> rfl
        · rfl
        · rfl
    · have htrue : (Update w id).any Event.isSetToken = true := by
        simp only [Update, hauth, h1f, h2f, h3f, h4f, h5f, h6f, h7, if_true,
          Bool.false_eq_true, if_false, List.any_append, hpre2, List.any_cons,
          Event.isSetToken, Bool.true_or, Bool.or_true]
      rw [htrue]
      constructor
      · intro _
        exact ⟨h1f, h2f, h3a, h3b, h4f, h5f, h6f, h7⟩
      · intro _
        rfl
  · have h7f : w.Has "settoken".toList = false := Bool.eq_false_iff.mpr h7
    constructor
    · simp only [Update, hauth, h1f, h2f, h3f, h4f, h5f, h6f, h7f, if_true,
        Bool.false_eq_true, if_false, List.filter_append, hpre]
      rfl
    · have hfalse : (Update w id).any Event.isSetToken = false := by
        simp only [Update, hauth, h1f, h2f, h3f, h4f, h5f, h6f, h7f, if_true,
          Bool.false_eq_true, if_false, List.any_append, hpre2]
        rfl
      rw [hfalse]
      constructor
      · intro h; cases h
      · rintro ⟨_, _, _, _, _, _, _, h⟩
        exact absurd h h7

theorem Update_invokes_first_selector_only_witness :
    World.suspendAndMore.passesAuth = true ∧
    (Update World.suspendAndMore "j1".toList).filter Event.isUpdateOp
      = (if World.suspendAndMore.Has "resume".toList then [.ResumeSuspendedJob "j1".toList]
       else if World.suspendAndMore.Has "suspend".toList then
         [.SuspendJob "j1".toList "manually suspended".toList]
       else if World.suspendAndMore.Has "resubmit".toList
           || World.suspendAndMore.Has "reregister".toList then [.ResubmitJob "j1".toList]
       else if World.suspendAndMore.Has "recompute".toList then
         [.RecomputeJob "j1".toList (World.suspendAndMore.Value "recompute".toList)]
       else if World.suspendAndMore.Has "clientgroup".toList then
         [.UpdateGroup "j1".toList (World.suspendAndMore.Value "clientgroup".toList)]
       else if World.suspendAndMore.Has "priority".toList then
         [.UpdatePriority "j1".toList (Atoi (World.suspendAndMore.Value "priority".toList)).1]
       else []) ∧
    Update World.suspendAndMore "j1".toList =
      [.LogRequest, .AdminAuthenticated, .SuspendJob "j1".toList "manually suspended".toList,
       .RespondWithData (.text "job suspended: j1".toList)] :=
  ⟨rfl, (Update_invokes_first_selector_only World.suspendAndMore "j1".toList rfl).1, rfl⟩

end AWE
